import Mathlib

set_option maxRecDepth 8000

/-!
Formal model of the nim_dashboard snapshot / delta / ranking pipeline.

Python dicts are modelled as insertion-ordered association lists
(`List (String × _)`), dict lookup as first-match lookup, and dict item
assignment as replace-first-or-append.  Python values that can be either a
number or the string sentinel "N/A" are modelled by the sum type `Val`;
Python floats are modelled as exact rationals, with `round(x, 2)` modelled
as exact round-half-to-even at two decimals.  Code that can raise an
exception is modelled in `Option` / `Except` (`none` / `.error` = an
exception propagating out of the modelled function).
-/

/-- A Python value that is either an int, a float (modelled as a rational),
or the string sentinel "N/A". -/
inductive Val where
  | int (n : ℤ)
  | num (q : ℚ)
  | na
deriving DecidableEq, Repr

/-- Numeric value of a `Val` (junk value 0 on the non-numeric sentinel;
only ever applied to numeric values). -/
def valToQ : Val → ℚ
  | .int n => (n : ℚ)
  | .num q => q
  | .na => 0

/-- Python binary `-` on snapshot metric values: defined on numbers,
raises `TypeError` (= `none`) if either side is the "N/A" string. -/
def pySub : Val → Val → Option Val
  | .int a, .int b => some (.int (a - b))
  | .int a, .num b => some (.num ((a : ℚ) - b))
  | .num a, .int b => some (.num (a - (b : ℚ)))
  | .num a, .num b => some (.num (a - b))
  | _, _ => none

/-- Python `x > 0` on a metric value: defined on numbers, raises
(= `none`) on the "N/A" string. -/
def pyPos : Val → Option Bool
  | .na => none
  | v => some (decide (0 < valToQ v))

/-- Round-half-to-even to an integer, the rounding used by Python `round`. -/
def roundHalfEven (q : ℚ) : ℤ :=
  let f := q.floor
  if q - f < 1/2 then f
  else if 1/2 < q - f then f + 1
  else if f % 2 = 0 then f else f + 1

/-- Python `round(x, 2)` on the exact rational model. -/
def roundQ2 (q : ℚ) : ℚ := (roundHalfEven (q * 100) : ℚ) / 100

/-- The percentage computation `round((views_delta / prev_views) * 100.0, 2)`. -/
def pctCompute (vd : ℤ) (pv : Val) : ℚ := roundQ2 (((vd : ℚ) / valToQ pv) * 100)

/-- One entity record of a snapshot: the per-video dict stored in
`snapshot["videos"][video_key]`.  Every field is optional, mirroring
the presence or absence of the dict key. -/
structure Entity where
  channel_name : Option String := none
  video_id : Option String := none
  label : Option String := none
  views : Option Val := none
  likes : Option Val := none
  comments : Option Val := none
  subscribers : Option Val := none
  views_delta : Option Val := none
  likes_delta : Option Val := none
  comments_delta : Option Val := none
  subscribers_delta : Option Val := none
  views_delta_pct : Option Val := none
deriving DecidableEq, Repr

/-- A snapshot document: `timestamp` and the `videos` mapping, either of
which may be absent from the dict. -/
structure Snapshot where
  timestamp : Option String := none
  videos : Option (List (String × Entity)) := none
deriving DecidableEq, Repr

/-- `snapshot.get("videos", {})`. -/
def Snapshot.videosD (s : Snapshot) : List (String × Entity) := s.videos.getD []

/-- The four raw deltas computed per entity by `compute_deltas_all`. -/
structure DeltaRec where
  views_delta : Val
  likes_delta : Val
  comments_delta : Val
  subscribers_delta : Val
deriving DecidableEq, Repr

/-- The all-"N/A" delta record used when there is no baseline. -/
def naDeltaRec : DeltaRec := ⟨.na, .na, .na, .na⟩

/-- Python `metrics.get(name)` for the numeric-or-"N/A" fields of an
entity record (any other key is absent). -/
def pyGet (e : Entity) : String → Option Val
  | "views" => e.views
  | "likes" => e.likes
  | "comments" => e.comments
  | "subscribers" => e.subscribers
  | "views_delta" => e.views_delta
  | "likes_delta" => e.likes_delta
  | "comments_delta" => e.comments_delta
  | "subscribers_delta" => e.subscribers_delta
  | "views_delta_pct" => e.views_delta_pct
  | _ => none

/-- Python dict lookup `d.get(k)`: first entry with the given key. -/
def lookupKV {α : Type} : List (String × α) → String → Option α
  | [], _ => none
  | p :: rest, k => if p.1 = k then some p.2 else lookupKV rest k

/-- Python in-place mutation of the value stored under an existing key:
replace the value of the first entry with that key. -/
def updateFirst {α : Type} : List (String × α) → String → α → List (String × α)
  | [], _, _ => []
  | p :: rest, k, v => if p.1 = k then (p.1, v) :: rest else p :: updateFirst rest k v

/-- Python dict item assignment `d[k] = v`: replace the first entry with
that key, or append a new entry. -/
def dictAssign {α : Type} : List (String × α) → String → α → List (String × α)
  | [], k, v => [(k, v)]
  | p :: rest, k, v => if p.1 = k then (p.1, v) :: rest else p :: dictAssign rest k v

/-- Body of the both-snapshots-have-this-key branch of `compute_deltas_all`
together with the new-entity branch: the delta record for one entry of the
current snapshot.  `none` = a `KeyError` / `TypeError` escaping. -/
def entryDelta (prevVideos : List (String × Entity)) (k : String) (cm : Entity) : Option DeltaRec :=
  match lookupKV prevVideos k with
  | none => some naDeltaRec
  | some pm => do
    let cv ← cm.views
    let pv ← pm.views
    let vd ← pySub cv pv
    let cl ← cm.likes
    let pl ← pm.likes
    let ld ← pySub cl pl
    let cc ← cm.comments
    let pc ← pm.comments
    let cd ← pySub cc pc
    let sd ← pySub (cm.subscribers.getD (Val.int 0)) (pm.subscribers.getD (Val.int 0))
    pure ⟨vd, ld, cd, sd⟩

/-- The loop of `compute_deltas_all` over `current_snapshot.get("videos", {})`. -/
def computeEntries (prevVideos : List (String × Entity)) : List (String × Entity) → Option (List (String × DeltaRec))
  | [] => some []
  | kv :: rest => do
    let d ← entryDelta prevVideos kv.1 kv.2
    let ds ← computeEntries prevVideos rest
    pure ((kv.1, d) :: ds)

/-- `compute_deltas_all(previous_snapshot, current_snapshot)` from nim_core.py
(the `"videos"` wrapper dict of the result is dropped: we return the inner
mapping). -/
def compute_deltas_all (prev : Option Snapshot) (cur : Snapshot) : Option (List (String × DeltaRec)) :=
  match prev with
  | none => some (cur.videosD.map fun kv => (kv.1, naDeltaRec))
  | some p =>
    match p.videos with
    | none => some (cur.videosD.map fun kv => (kv.1, naDeltaRec))
    | some prevVideos => computeEntries prevVideos cur.videosD

/-- The per-entity body of the loop of `apply_deltas_to_snapshot`: copy the
four raw deltas into the record and derive `views_delta_pct`. -/
def injectDeltas (e : Entity) (dv : DeltaRec) : Option Entity :=
  let e1 := { e with views_delta := some dv.views_delta, likes_delta := some dv.likes_delta,
                     comments_delta := some dv.comments_delta,
                     subscribers_delta := some dv.subscribers_delta }
  match dv.views_delta with
  | Val.int vd => do
    let v ← e1.views
    let pv ← pySub v (Val.int vd)
    let pos ← pyPos pv
    pure { e1 with views_delta_pct := some (if pos then Val.num (pctCompute vd pv) else Val.na) }
  | _ => pure { e1 with views_delta_pct := some Val.na }

/-- The loop of `apply_deltas_to_snapshot` over the delta records, mutating
`current_snapshot["videos"]` in place. -/
def applyLoop : List (String × DeltaRec) → List (String × Entity) → Option (List (String × Entity))
  | [], vs => some vs
  | kd :: rest, vs =>
    match lookupKV vs kd.1 with
    | none => applyLoop rest vs
    | some e =>
      match injectDeltas e kd.2 with
      | none => none
      | some e2 => applyLoop rest (updateFirst vs kd.1 e2)

/-- `apply_deltas_to_snapshot(previous_snapshot, current_snapshot)` from
nim_core.py. -/
def apply_deltas_to_snapshot (prev cur : Option Snapshot) : Option (Option Snapshot) :=
  match cur with
  | none => some none
  | some c =>
    match c.videos with
    | none => some (some c)
    | some curVideos => do
      let ds ← compute_deltas_all prev c
      let nv ← applyLoop ds curVideos
      pure (some { c with videos := some nv })

/-- The global minimum-views display threshold. -/
def MIN_VIEWS_FOR_DISPLAY : ℤ := 25000

/-- One row of the ranked output of `get_top_videos_by_metric`. -/
structure Row where
  video_key : String
  channel_name : String
  video_id : String
  label : String
  current_value : Val
  delta : Val
deriving DecidableEq, Repr

/-- The row dict appended by `get_top_videos_by_metric` for one entity. -/
def mkRow (metric : String) (k : String) (e : Entity) : Row :=
  { video_key := k
    channel_name := e.channel_name.getD ""
    video_id := e.video_id.getD ""
    label := e.label.getD k
    current_value := e.views.getD (Val.int 0)
    delta := if metric = "views" then e.views.getD (Val.int 0) else (pyGet e metric).getD Val.na }

/-- The filter body of `get_top_videos_by_metric` for one entry: `none` if
the entity is skipped, otherwise the produced row. -/
def rowOf (metric : String) (kv : String × Entity) : Option Row :=
  match kv.2.views.getD (Val.int 0) with
  | Val.int v =>
    if v < MIN_VIEWS_FOR_DISPLAY then none
    else if metric = "views" then some (mkRow metric kv.1 kv.2)
    else
      match (pyGet kv.2 metric).getD Val.na with
      | Val.na => none
      | _ => some (mkRow metric kv.1 kv.2)
  | _ => none

/-- The unsorted candidate rows collected by `get_top_videos_by_metric`
before sorting and truncation. -/
def rowsOf (s : Snapshot) (metric : String) : List Row := s.videosD.filterMap (rowOf metric)

/-- Stable descending insertion: keep existing rows that are strictly
greater, so equal rows retain their original relative order. -/
def insertDesc (r : Row) : List Row → List Row
  | [] => [r]
  | x :: xs => if valToQ r.delta < valToQ x.delta then x :: insertDesc r xs else r :: x :: xs

/-- A stable descending sort by the row's delta value, modelling Python
`rows.sort(key=..., reverse=True)` (Python's sort is stable). -/
def sortDesc : List Row → List Row
  | [] => []
  | x :: xs => insertDesc x (sortDesc xs)

/-- `get_top_videos_by_metric(snapshot, metric, top_n)` from nim_core.py. -/
def get_top_videos_by_metric (s : Snapshot) (metric : String) (top_n : ℕ) : List Row :=
  (sortDesc (rowsOf s metric)).take top_n

/-- Per-video statistics as parsed from one item of a video-stats response. -/
structure Stats where
  title : String
  channel_title : String
  views : ℤ
  likes : ℤ
  comments : ℤ
deriving DecidableEq, Repr

/-- Outcome of one HTTP request to the external statistics collaborator:
a successful response, an HTTP error status (raising `HTTPError` from
`raise_for_status`), or any other exception (network error, timeout, ...). -/
inductive ReqOutcome (α : Type) where
  | ok (a : α)
  | httpError
  | exn
deriving DecidableEq, Repr

/-- The external collaborators (YouTube API) and the clock, as oracles. -/
structure World where
  now : String
  channelUploads : String → ℕ → ReqOutcome (List String)
  keywordSearch : String → ℕ → ReqOutcome (List String)
  videoStats : List String → ReqOutcome (List (String × Stats))

/-- One entry of channels.json. -/
structure ChannelCfg where
  key : Option String := none
  channel_id : Option String := none
  label : Option String := none
deriving DecidableEq, Repr

/-- One entry of keywords.json. -/
structure KeywordCfg where
  key : Option String := none
  queries : Option (List String) := none
  label : Option String := none
deriving DecidableEq, Repr

/-- One entry of `video_meta_list` in `build_snapshot_from_channels_and_keywords`. -/
structure MetaRec where
  video_id : String
  source_type : String
  source_key : String
  source_label : String
deriving DecidableEq, Repr

/-- `fetch_latest_video_ids_for_channel_via_playlist`: no internal catch,
so an HTTP error status or any other request failure raises. -/
def fetch_latest_video_ids_for_channel_via_playlist (w : World) (apiKey channelId : String)
    (maxResults : ℕ) : Except String (List String) :=
  if apiKey = "" then .error "RuntimeError"
  else match w.channelUploads channelId maxResults with
    | .ok ids => .ok ids
    | .httpError => .error "HTTPError"
    | .exn => .error "RequestException"

/-- `fetch_video_ids_for_keyword`: an `HTTPError` is caught internally and
yields an empty list; any other request failure raises. -/
def fetch_video_ids_for_keyword (w : World) (apiKey q : String) (maxResults : ℕ) :
    Except String (List String) :=
  if apiKey = "" then .error "RuntimeError"
  else match w.keywordSearch q maxResults with
    | .ok ids => .ok ids
    | .httpError => .ok []
    | .exn => .error "RequestException"

/-- The batch loop of `fetch_youtube_stats_for_videos`: batches of 50; on
an `HTTPError` the partial results collected so far are returned and the
remaining batches are abandoned; any other failure raises. -/
def fetchStatsAux (w : World) : List String → List (String × Stats) → Except String (List (String × Stats))
  | [], acc => .ok acc
  | a :: l, acc =>
    match w.videoStats ((a :: l).take 50) with
    | .ok items => fetchStatsAux w ((a :: l).drop 50) (items.foldl (fun m p => dictAssign m p.1 p.2) acc)
    | .httpError => .ok acc
    | .exn => .error "RequestException"
termination_by ids _ => ids.length
decreasing_by simp [List.length_drop]; omega

/-- `fetch_youtube_stats_for_videos(api_key, video_ids)` from nim_core.py. -/
def fetch_youtube_stats_for_videos (w : World) (apiKey : String) (video_ids : List String) :
    Except String (List (String × Stats)) :=
  if apiKey = "" then .error "RuntimeError" else fetchStatsAux w video_ids []

/-- The inner `for vid in ids` loop of the builder: record each video id not
seen before, keyed to the sub-source that discovered it. -/
def addIds (ids : List String) (stype skey slabel : String) (st : List String × List MetaRec) :
    List String × List MetaRec :=
  ids.foldl
    (fun st2 vid =>
      if vid ∈ st2.1 then st2
      else (st2.1 ++ [vid], st2.2 ++ [⟨vid, stype, skey, slabel⟩]))
    st

/-- The channels loop of `build_snapshot_from_channels_and_keywords`:
a failing channel fetch is caught and skipped. -/
def discoverChannels (w : World) (apiKey : String) (maxPerChannel : ℕ) :
    List ChannelCfg → List String × List MetaRec → List String × List MetaRec
  | [], st => st
  | ch :: rest, st =>
    let chKey := ch.key.getD "channel"
    match ch.channel_id with
    | none => discoverChannels w apiKey maxPerChannel rest st
    | some chId =>
      if chId = "" then discoverChannels w apiKey maxPerChannel rest st
      else
        let chLabel := ch.label.getD chKey
        match fetch_latest_video_ids_for_channel_via_playlist w apiKey chId maxPerChannel with
        | .error _ => discoverChannels w apiKey maxPerChannel rest st
        | .ok ids => discoverChannels w apiKey maxPerChannel rest (addIds ids "channel" chKey chLabel st)

/-- The keywords loop of `build_snapshot_from_channels_and_keywords`:
a failing keyword query is caught and skipped. -/
def discoverKeywords (w : World) (apiKey : String) (maxPerKeyword : ℕ) :
    List KeywordCfg → List String × List MetaRec → List String × List MetaRec
  | [], st => st
  | kw :: rest, st =>
    let kwKey := kw.key.getD "keyword"
    let kwLabel := kw.label.getD kwKey
    let st2 := (kw.queries.getD []).foldl
      (fun stq q =>
        match fetch_video_ids_for_keyword w apiKey q maxPerKeyword with
        | .error _ => stq
        | .ok ids => addIds ids "keyword" kwKey kwLabel stq)
      st
    discoverKeywords w apiKey maxPerKeyword rest st2

/-- The discovery phase of the builder: channels first, then keywords. -/
def discoverAll (w : World) (apiKey : String) (ccfg : List ChannelCfg) (kcfg : List KeywordCfg)
    (mc mk : ℕ) : List String × List MetaRec :=
  discoverKeywords w apiKey mk kcfg (discoverChannels w apiKey mc ccfg ([], []))

/-- The snapshot entity key built for one discovered video. -/
def metaKey (m : MetaRec) : String := m.source_type ++ "_" ++ m.source_key ++ "_" ++ m.video_id

/-- The entity record stored for one discovered video. -/
def entityOfStats (m : MetaRec) (st : Stats) : Entity :=
  { channel_name := some st.channel_title
    video_id := some m.video_id
    label := some (m.source_label ++ " – " ++ st.title.take 50)
    views := some (Val.int st.views)
    likes := some (Val.int st.likes)
    comments := some (Val.int st.comments)
    subscribers := some (Val.int 0) }

/-- `build_snapshot_from_channels_and_keywords` from nim_core.py. -/
def build_snapshot_from_channels_and_keywords (w : World) (apiKey : String)
    (ccfg : List ChannelCfg) (kcfg : List KeywordCfg) (mc mk : ℕ) : Except String Snapshot :=
  if apiKey = "" then .error "RuntimeError"
  else
    let st := discoverAll w apiKey ccfg kcfg mc mk
    let snap0 : Snapshot := { timestamp := some w.now, videos := some [] }
    if st.1.isEmpty then .ok snap0
    else do
      let stats ← fetch_youtube_stats_for_videos w apiKey st.1
      let videos := st.2.foldl
        (fun acc m =>
          match lookupKV stats m.video_id with
          | none => acc
          | some sbv => dictAssign acc (metaKey m) (entityOfStats m sbv))
        []
      .ok { snap0 with videos := some videos }

/-- State of a persisted file as seen by one load: missing, existing but
failing to open or read (an OS-level error), readable but not decodable as
JSON, or decoding to a document. -/
inductive FileOutcome (δ : Type) where
  | absent
  | unreadable
  | decodeError
  | json (d : δ)
deriving DecidableEq, Repr

/-- A decoded snapshot-file document: a dict (modelled as a snapshot) or
some other JSON value. -/
inductive SnapDoc where
  | dict (s : Snapshot)
  | nonDict
deriving DecidableEq, Repr

/-- A decoded guard-timestamp document: one whose `last_run` entry parses
to a timestamp (modelled as minutes), or anything else (wrong shape,
missing key, unparseable string — all raise and are caught). -/
inductive LastRunDoc where
  | valid (t : ℤ)
  | invalid
deriving DecidableEq, Repr

/-- `load_previous_data` from nim_core.py.  Only `json.JSONDecodeError` is
caught: an OS-level read failure on an existing file propagates. -/
def load_previous_data (f : FileOutcome SnapDoc) : Except String (Option Snapshot) :=
  match f with
  | .absent => .ok none
  | .unreadable => .error "OSError"
  | .decodeError => .ok none
  | .json (.dict s) => .ok (some s)
  | .json .nonDict => .ok none

/-- `get_last_option5_run` from nim_web.py: the whole body is wrapped in
`except Exception`, so every failure yields `None`. -/
def get_last_option5_run (f : FileOutcome LastRunDoc) : Except String (Option ℤ) :=
  match f with
  | .absent => .ok none
  | .unreadable => .ok none
  | .decodeError => .ok none
  | .json (.valid t) => .ok (some t)
  | .json .invalid => .ok none

/-- The structured statuses of the `/refresh/<token>` endpoint. -/
inductive Response where
  | abort500
  | abort403
  | skipped_recent (last_run : ℤ)
  | error_no_videos
  | okResp (timestamp : Option String) (video_count : ℕ)
deriving DecidableEq, Repr

/-- Result of one run of the refresh endpoint: the response plus what, if
anything, was written to the snapshot file and the guard-timestamp file. -/
structure RefreshOutcome where
  response : Response
  savedSnapshot : Option Snapshot
  savedLastRun : Option ℤ
deriving DecidableEq, Repr

/-- Turn a missing value into a raised exception. -/
def orRaise {α : Type} (o : Option α) (msg : String) : Except String α :=
  match o with
  | some a => .ok a
  | none => .error msg

/-- Python truthiness test `not current.get("videos")`. -/
def pyFalsyVideos (s : Snapshot) : Bool :=
  match s.videos with
  | none => true
  | some l => l.isEmpty

/-- The part of `refresh_snapshot` after the 24h guard: load previous,
build, suppress the save on an empty build, else enrich, save and record
the run. -/
def refreshBody (w : World) (apiKey : String) (now : ℤ) (snapF : FileOutcome SnapDoc)
    (ccfg : List ChannelCfg) (kcfg : List KeywordCfg) : Except String RefreshOutcome := do
  let prev ← load_previous_data snapF
  let current ← build_snapshot_from_channels_and_keywords w apiKey ccfg kcfg 5 3
  if pyFalsyVideos current then
    pure ⟨Response.error_no_videos, none, none⟩
  else do
    let enriched ← orRaise
      (match apply_deltas_to_snapshot prev (some current) with
        | some (some s2) => some s2
        | _ => none) "TypeError"
    let vl ← orRaise enriched.videos "KeyError"
    pure ⟨Response.okResp enriched.timestamp vl.length, some enriched, some now⟩

/-- `refresh_snapshot` from nim_web.py (time modelled in minutes; the 24h
guard interval is 1440 minutes). -/
def refresh_snapshot (w : World) (apiKey refreshToken token : String) (now : ℤ)
    (lastRunF : FileOutcome LastRunDoc) (snapF : FileOutcome SnapDoc)
    (ccfg : List ChannelCfg) (kcfg : List KeywordCfg) : Except String RefreshOutcome :=
  if refreshToken = "" then .ok ⟨Response.abort500, none, none⟩
  else if token ≠ refreshToken then .ok ⟨Response.abort403, none, none⟩
  else do
    let lr ← get_last_option5_run lastRunF
    match lr with
    | some t =>
      if now - t < 1440 then pure ⟨Response.skipped_recent t, none, none⟩
      else refreshBody w apiKey now snapF ccfg kcfg
    | none => refreshBody w apiKey now snapF ccfg kcfg

/-- The candidate condition of claim C4, written from the claim's words:
the views field is a concrete non-negative integer at least the display
threshold, and for the delta metrics the metric field is a concrete
number. -/
def claimQualifies (metric : String) (e : Entity) : Bool :=
  (match e.views with
    | some (Val.int v) => decide (0 ≤ v) && decide (MIN_VIEWS_FOR_DISPLAY ≤ v)
    | _ => false) &&
  (if metric = "views" then true
   else match pyGet e metric with
     | some (Val.int _) => true
     | some (Val.num _) => true
     | _ => false)

/-- Concrete entity used for claim C4's counterexample: it satisfies the
candidate condition for the `views` metric. -/
def c4ent : Entity := { views := some (Val.int 30000), label := some "L" }

/-- Concrete snapshot used for claim C4's counterexample. -/
def c4snap : Snapshot := { timestamp := some "t", videos := some [("v1", c4ent)] }

/-- Concrete world for claim C7's counterexample: one channel lookup
succeeds, but the video-stats batch call raises a non-HTTP exception. -/
def c7world : World :=
  { now := "t",
    channelUploads := fun _ _ => ReqOutcome.ok ["v1"],
    keywordSearch := fun _ _ => ReqOutcome.ok [],
    videoStats := fun _ => ReqOutcome.exn }

/-- Concrete channel configuration for claim C7. -/
def c7cfg : List ChannelCfg :=
  [{ key := some "c1", channel_id := some "CH1", label := some "C1" }]

/-- Concrete failing channel entry for claim C7's witness. -/
def c7chBad : ChannelCfg := { key := some "c1", channel_id := some "CH1", label := some "C1" }

/-- Concrete succeeding channel entry for claim C7's witness. -/
def c7chGood : ChannelCfg := { key := some "c2", channel_id := some "CH2", label := some "C2" }

/-- Concrete keyword entry with one failing query for claim C7's witness. -/
def c7kwBad : KeywordCfg := { key := some "k1", queries := some ["qbad"], label := some "K1" }

/-- Concrete world for claim C7's witness: the lookup for channel CH1 and
the query qbad raise, channel CH2 succeeds, and video-stats calls
succeed. -/
def c7mixWorld : World :=
  { now := "t",
    channelUploads := fun cid _ => if cid = "CH2" then ReqOutcome.ok ["v2"] else ReqOutcome.exn,
    keywordSearch := fun q _ => if q = "qbad" then ReqOutcome.exn else ReqOutcome.ok [],
    videoStats := fun b => ReqOutcome.ok (b.map fun v => (v, ⟨"T", "CT", 30000, 1, 2⟩)) }

/-- Concrete world for claim C7's witness whose video-stats call returns
an HTTP error status. -/
def c7hw : World :=
  { now := "t",
    channelUploads := fun _ _ => ReqOutcome.ok [],
    keywordSearch := fun _ _ => ReqOutcome.ok [],
    videoStats := fun _ => ReqOutcome.httpError }

/-- The snapshot built in claim C7's witness run: it holds exactly the
entity of the succeeding channel CH2. -/
def c7mixRes : Snapshot :=
  { timestamp := some "t",
    videos := some [("channel_c2_v2",
      { channel_name := some "CT", video_id := some "v2", label := some "C2 – T",
        views := some (Val.int 30000), likes := some (Val.int 1),
        comments := some (Val.int 2), subscribers := some (Val.int 0) })] }

/-- The discovery list of `build_snapshot_from_channels_and_keywords`:
one entry per first discovery of a video id, channels before keywords. -/
def metasOf (w : World) (apiKey : String) (ccfg : List ChannelCfg) (kcfg : List KeywordCfg)
    (mc mk : ℕ) : List MetaRec :=
  (discoverAll w apiKey ccfg kcfg mc mk).2

/-- Invariant of the discovery state: the seen-id set is exactly the list
of discovered videos' ids, without duplicates. -/
def stInv (st : List String × List MetaRec) : Prop :=
  st.1 = st.2.map MetaRec.video_id ∧ st.1.Nodup

/-- Concrete world for claim C10: the keyword search rediscovers a video
already found through a channel. -/
def c10world : World :=
  { now := "t",
    channelUploads := fun _ _ => ReqOutcome.ok ["vA", "vB"],
    keywordSearch := fun _ _ => ReqOutcome.ok ["vA", "vC"],
    videoStats := fun b => ReqOutcome.ok (b.map fun v => (v, ⟨"T", "CT", 30000, 1, 2⟩)) }

/-- Concrete channel configuration for claim C10. -/
def c10ccfg : List ChannelCfg :=
  [{ key := some "c1", channel_id := some "CH1", label := some "C1" }]

/-- Concrete keyword configuration for claim C10. -/
def c10kcfg : List KeywordCfg :=
  [{ key := some "k1", queries := some ["q1"], label := some "K1" }]

/-- The stats mapping fetched in claim C10's concrete run. -/
def c10stats : List (String × Stats) :=
  [("vA", ⟨"T", "CT", 30000, 1, 2⟩), ("vB", ⟨"T", "CT", 30000, 1, 2⟩),
   ("vC", ⟨"T", "CT", 30000, 1, 2⟩)]

/-- The snapshot built in claim C10's concrete run: the keyword hit on
`vA` is deduplicated under its channel key. -/
def c10res : Snapshot :=
  { timestamp := some "t",
    videos := some
      [("channel_c1_vA",
        { channel_name := some "CT", video_id := some "vA", label := some "C1 – T",
          views := some (Val.int 30000), likes := some (Val.int 1),
          comments := some (Val.int 2), subscribers := some (Val.int 0) }),
       ("channel_c1_vB",
        { channel_name := some "CT", video_id := some "vB", label := some "C1 – T",
          views := some (Val.int 30000), likes := some (Val.int 1),
          comments := some (Val.int 2), subscribers := some (Val.int 0) }),
       ("keyword_k1_vC",
        { channel_name := some "CT", video_id := some "vC", label := some "K1 – T",
          views := some (Val.int 30000), likes := some (Val.int 1),
          comments := some (Val.int 2), subscribers := some (Val.int 0) })] }

/-- Concrete world for claim C8's witness. -/
def c8world : World :=
  { now := "t",
    channelUploads := fun _ _ => ReqOutcome.ok [],
    keywordSearch := fun _ _ => ReqOutcome.ok [],
    videoStats := fun _ => ReqOutcome.ok [] }

/-- The entity mapping of an optional previous snapshot, if it is present
and has a `videos` key. -/
def prevEntities : Option Snapshot → Option (List (String × Entity))
  | none => none
  | some p => p.videos

/-- The non-delta fields of the second entity agree with those of the
first: the delta-injection loop touches nothing else. -/
def sameNonDelta (e e2 : Entity) : Prop :=
  e2.channel_name = e.channel_name ∧ e2.video_id = e.video_id ∧ e2.label = e.label ∧
  e2.views = e.views ∧ e2.likes = e.likes ∧ e2.comments = e.comments ∧
  e2.subscribers = e.subscribers

/-- Entry-wise relation between a videos list and its enriched form: the
key is unchanged and the entity differs at most in the five delta fields. -/
def keyFrame (p q : String × Entity) : Prop := q.1 = p.1 ∧ sameNonDelta p.2 q.2

/-- Consistency of an enriched entity: its `views_delta_pct` field is
present and determined from its `views_delta` and `views` fields the way
the injection loop computes it. -/
def pctInv (e : Entity) : Prop :=
  ∀ vd, e.views_delta = some vd →
    ∃ pct, e.views_delta_pct = some pct ∧
      ((vd = Val.na ∨ ∃ q, vd = Val.num q) → pct = Val.na) ∧
      (∀ n, vd = Val.int n → ∃ v pv, e.views = some v ∧ pySub v (Val.int n) = some pv ∧
        pct = (if 0 < valToQ pv then Val.num (pctCompute n pv) else Val.na))

/-- Concrete previous snapshot used to instantiate claim C3 (the
zero-baseline scenario: previous views are 0). -/
def c3prev : Snapshot :=
  { timestamp := some "t0",
    videos := some [("v1", { views := some (Val.int 0), likes := some (Val.int 0),
                             comments := some (Val.int 0) })] }

/-- Concrete current snapshot used to instantiate claim C3. -/
def c3cur : Snapshot :=
  { timestamp := some "t1",
    videos := some [("v1", { views := some (Val.int 5000), likes := some (Val.int 0),
                             comments := some (Val.int 0) })] }

/-- The enriched entity `apply_deltas_to_snapshot` produces for claim C3's
concrete inputs: the reconstructed baseline is 0, so the percentage is the
"N/A" sentinel. -/
def c3ent : Entity :=
  { views := some (Val.int 5000), likes := some (Val.int 0), comments := some (Val.int 0),
    views_delta := some (Val.int 5000), likes_delta := some (Val.int 0),
    comments_delta := some (Val.int 0), subscribers_delta := some (Val.int 0),
    views_delta_pct := some Val.na }

/-- The enriched snapshot `apply_deltas_to_snapshot` produces for claim
C3's concrete inputs. -/
def c3res : Snapshot := { timestamp := some "t1", videos := some [("v1", c3ent)] }

/-- Concrete current snapshot used to instantiate claim C9 (previous is
absent there). -/
def c9cur : Snapshot :=
  { timestamp := some "t", videos := some [("a", { views := some (Val.int 100) })] }

/-- The enriched snapshot `apply_deltas_to_snapshot` produces for claim
C9's concrete inputs. -/
def c9res : Snapshot :=
  { timestamp := some "t",
    videos := some [("a", { views := some (Val.int 100), views_delta := some Val.na,
                            likes_delta := some Val.na, comments_delta := some Val.na,
                            subscribers_delta := some Val.na,
                            views_delta_pct := some Val.na })] }

/-- Concrete previous snapshot used to instantiate claim C1. -/
def c1prev : Snapshot :=
  { timestamp := some "t0",
    videos := some [("v1", { views := some (Val.int 40000), likes := some (Val.int 10),
                             comments := some (Val.int 5) })] }

/-- Concrete current snapshot used to instantiate claim C1. -/
def c1cur : Snapshot :=
  { timestamp := some "t1",
    videos := some [("v1", { views := some (Val.int 44000), likes := some (Val.int 12),
                             comments := some (Val.int 6) })] }

/-- Concrete previous snapshot used to instantiate claim C2. -/
def c2prev : Snapshot :=
  { timestamp := some "t0",
    videos := some [("v1", { views := some (Val.int 40000), likes := some (Val.int 10),
                             comments := some (Val.int 5) })] }

/-- Concrete current snapshot used to instantiate claim C2: one entity with
a baseline and one new entity. -/
def c2cur : Snapshot :=
  { timestamp := some "t1",
    videos := some [("v1", { views := some (Val.int 44000), likes := some (Val.int 12),
                             comments := some (Val.int 6) }),
                    ("v2", { views := some (Val.int 30000), likes := some (Val.int 1),
                             comments := some (Val.int 0) })] }

/-- The delta mapping `compute_deltas_all` yields for `c2prev`/`c2cur`. -/
def c2d : List (String × DeltaRec) :=
  [("v1", ⟨Val.int 4000, Val.int 2, Val.int 1, Val.int 0⟩), ("v2", naDeltaRec)]

section DeltaLemmas

theorem pySub_ne_na {a b v : Val} (h : pySub a b = some v) : v ≠ Val.na := by
  cases a <;> cases b <;> simp [pySub] at h <;> simp [← h]

theorem lookupKV_map_na (l : List (String × Entity)) (k : String) :
    lookupKV (l.map fun kv => (kv.1, naDeltaRec)) k = (lookupKV l k).map fun _ => naDeltaRec := by
  induction l with
  | nil => simp [lookupKV]
  | cons kv rest ih =>
    by_cases h : kv.1 = k <;> simp [lookupKV, h, ih]

theorem computeEntries_keys {pvs : List (String × Entity)} :
    ∀ {l ds}, computeEntries pvs l = some ds → ds.map Prod.fst = l.map Prod.fst := by
  intro l
  induction l with
  | nil =>
    intro ds h
    simp [computeEntries] at h
    simp [← h]
  | cons kv rest ih =>
    intro ds h
    simp only [computeEntries] at h
    cases h1 : entryDelta pvs kv.1 kv.2 with
    | none => rw [h1] at h; simp at h
    | some d =>
      rw [h1] at h
      cases h2 : computeEntries pvs rest with
      | none => rw [h2] at h; simp at h
      | some ds2 =>
        rw [h2] at h
        simp at h
        simp [← h, ih h2]

theorem computeEntries_lookup {pvs : List (String × Entity)} :
    ∀ {l ds k cm}, computeEntries pvs l = some ds → lookupKV l k = some cm →
      ∃ d, entryDelta pvs k cm = some d ∧ lookupKV ds k = some d := by
  intro l
  induction l with
  | nil => intro ds k cm h hl; simp [lookupKV] at hl
  | cons kv rest ih =>
    intro ds k cm h hl
    simp only [computeEntries] at h
    cases h1 : entryDelta pvs kv.1 kv.2 with
    | none => rw [h1] at h; simp at h
    | some d =>
      rw [h1] at h
      cases h2 : computeEntries pvs rest with
      | none => rw [h2] at h; simp at h
      | some ds2 =>
        rw [h2] at h
        simp at h
        by_cases hk : kv.1 = k
        · subst hk
          simp [lookupKV] at hl
          subst hl
          exact ⟨d, h1, by simp [← h, lookupKV]⟩
        · simp [lookupKV, hk] at hl
          obtain ⟨d2, hd2, hl2⟩ := ih h2 hl
          exact ⟨d2, hd2, by simp [← h, lookupKV, hk, hl2]⟩

end DeltaLemmas

theorem computeEntries_lookup_rev {pvs : List (String × Entity)} :
    ∀ {l ds k dr}, computeEntries pvs l = some ds → lookupKV ds k = some dr →
      ∃ cm, lookupKV l k = some cm ∧ entryDelta pvs k cm = some dr := by
  intro l
  induction l with
  | nil =>
    intro ds k dr h hl
    simp [computeEntries] at h
    subst h
    simp [lookupKV] at hl
  | cons kv rest ih =>
    intro ds k dr h hl
    simp only [computeEntries] at h
    cases h1 : entryDelta pvs kv.1 kv.2 with
    | none => rw [h1] at h; simp at h
    | some d =>
      rw [h1] at h
      cases h2 : computeEntries pvs rest with
      | none => rw [h2] at h; simp at h
      | some ds2 =>
        rw [h2] at h
        simp at h
        rw [← h] at hl
        by_cases hk : kv.1 = k
        · subst hk
          simp [lookupKV] at hl
          exact ⟨kv.2, by simp [lookupKV], by rw [h1, hl]⟩
        · simp [lookupKV, hk] at hl
          obtain ⟨cm, hcm, hd⟩ := ih h2 hl
          exact ⟨cm, by simp [lookupKV, hk, hcm], hd⟩

/-- Claim C1: for every previous and current snapshot and every entity key
present in both `previous.entities` and `current.entities` with integer
metrics, `compute_deltas_all` yields `views_delta = current.views -
previous.views`, and similarly for likes, comments and subscribers, where
`subscribers` defaults to 0 on either side if the field is missing. -/
theorem c1_deltas_for_common_keys
    (prev cur : Snapshot) (d : List (String × DeltaRec)) (k : String)
    (pm cm : Entity) (cv pv cl pl cc pc cs ps : ℤ)
    (h : compute_deltas_all (some prev) cur = some d)
    (hp : lookupKV prev.videosD k = some pm)
    (hc : lookupKV cur.videosD k = some cm)
    (hcv : cm.views = some (Val.int cv)) (hpv : pm.views = some (Val.int pv))
    (hcl : cm.likes = some (Val.int cl)) (hpl : pm.likes = some (Val.int pl))
    (hcc : cm.comments = some (Val.int cc)) (hpc : pm.comments = some (Val.int pc))
    (hcs : cm.subscribers.getD (Val.int 0) = Val.int cs)
    (hps : pm.subscribers.getD (Val.int 0) = Val.int ps) :
    lookupKV d k =
      some ⟨Val.int (cv - pv), Val.int (cl - pl), Val.int (cc - pc), Val.int (cs - ps)⟩ := by
  cases hvids : prev.videos with
  | none =>
    simp only [Snapshot.videosD, hvids, Option.getD_none] at hp
    simp [lookupKV] at hp
  | some pvs =>
    simp only [Snapshot.videosD, hvids, Option.getD_some] at hp
    have hce : computeEntries pvs cur.videosD = some d := by
      simpa [compute_deltas_all, hvids] using h
    obtain ⟨dr, hdr, hld⟩ := computeEntries_lookup hce hc
    rw [entryDelta, hp] at hdr
    simp [hcv, hpv, hcl, hpl, hcc, hpc, hcs, hps, pySub] at hdr
    rw [hld, ← hdr]

/-- Claim C2: the key list of the mapping returned by `compute_deltas_all`
is exactly the key list of `current.entities` (entities present only in
the previous snapshot are dropped), and a key's four deltas all equal the
"N/A" sentinel exactly when the previous snapshot is absent, has no
entity mapping, or does not contain the key. -/
theorem c2_keyset_and_na
    (prev : Option Snapshot) (cur : Snapshot) (d : List (String × DeltaRec))
    (h : compute_deltas_all prev cur = some d) :
    d.map Prod.fst = cur.videosD.map Prod.fst ∧
    ∀ k dr, lookupKV d k = some dr →
      ((dr.views_delta = Val.na ∧ dr.likes_delta = Val.na ∧ dr.comments_delta = Val.na ∧
          dr.subscribers_delta = Val.na) ↔
        (prevEntities prev = none ∨ lookupKV ((prevEntities prev).getD []) k = none)) := by
  have hna : ∀ (hd : d = cur.videosD.map fun kv => (kv.1, naDeltaRec)),
      prevEntities prev = none →
      d.map Prod.fst = cur.videosD.map Prod.fst ∧
      ∀ k dr, lookupKV d k = some dr →
        ((dr.views_delta = Val.na ∧ dr.likes_delta = Val.na ∧ dr.comments_delta = Val.na ∧
            dr.subscribers_delta = Val.na) ↔
          (prevEntities prev = none ∨ lookupKV ((prevEntities prev).getD []) k = none)) := by
    intro hd hpe
    constructor
    · simp [hd]
    · intro k dr hl
      rw [hd, lookupKV_map_na] at hl
      cases hl2 : lookupKV cur.videosD k with
      | none => rw [hl2] at hl; simp at hl
      | some cm =>
        rw [hl2] at hl
        simp at hl
        simp [← hl, naDeltaRec, hpe]
  cases prev with
  | none =>
    exact hna (by simpa [compute_deltas_all] using h.symm) (by simp [prevEntities])
  | some p =>
    cases hvids : p.videos with
    | none =>
      exact hna (by simpa [compute_deltas_all, hvids] using h.symm) (by simp [prevEntities, hvids])
    | some pvs =>
      have hce : computeEntries pvs cur.videosD = some d := by
        simpa [compute_deltas_all, hvids] using h
      refine ⟨computeEntries_keys hce, ?_⟩
      intro k dr hl
      obtain ⟨cm, hcm, hdr⟩ := computeEntries_lookup_rev hce hl
      cases hpm : lookupKV pvs k with
      | none =>
        rw [entryDelta, hpm] at hdr
        simp at hdr
        simp [← hdr, naDeltaRec, prevEntities, hvids, hpm]
      | some pm =>
        rw [entryDelta, hpm] at hdr
        simp only [Option.bind_eq_bind, Option.bind_eq_some] at hdr
        obtain ⟨cv, hcv, pv, hpv, vd, hvd, cl, hcl, pl, hpl, ld, hld,
          cc, hcc, pc, hpc, cd, hcd, sd, hsd, hpure⟩ := hdr
        simp at hpure
        constructor
        · intro hfour
          exfalso
          apply pySub_ne_na hvd
          rw [← hpure] at hfour
          simpa using hfour.1
        · intro hrhs
          rcases hrhs with h1 | h2
          · simp [prevEntities, hvids] at h1
          · simp [prevEntities, hvids, hpm] at h2

/-- Witness for claim C1 at a concrete pair of snapshots. -/
theorem c1_witness :
    lookupKV [("v1", (⟨Val.int 4000, Val.int 2, Val.int 1, Val.int 0⟩ : DeltaRec))] "v1" =
      some ⟨Val.int 4000, Val.int 2, Val.int 1, Val.int 0⟩ := by
  have := c1_deltas_for_common_keys c1prev c1cur
    [("v1", ⟨Val.int 4000, Val.int 2, Val.int 1, Val.int 0⟩)] "v1"
    { views := some (Val.int 40000), likes := some (Val.int 10), comments := some (Val.int 5) }
    { views := some (Val.int 44000), likes := some (Val.int 12), comments := some (Val.int 6) }
    44000 40000 12 10 6 5 0 0
    (by decide) (by decide) (by decide) rfl rfl rfl rfl rfl rfl rfl rfl
  simpa using this

/-- Witness for claim C2 at a concrete pair of snapshots. -/
theorem c2_witness :
    c2d.map Prod.fst = c2cur.videosD.map Prod.fst ∧
    ∀ k dr, lookupKV c2d k = some dr →
      ((dr.views_delta = Val.na ∧ dr.likes_delta = Val.na ∧ dr.comments_delta = Val.na ∧
          dr.subscribers_delta = Val.na) ↔
        (prevEntities (some c2prev) = none ∨
          lookupKV ((prevEntities (some c2prev)).getD []) k = none)) :=
  c2_keyset_and_na (some c2prev) c2cur c2d (by decide)

section ApplyLemmas

theorem keyFrame_refl (p : String × Entity) : keyFrame p p := by
  simp [keyFrame, sameNonDelta]

theorem keyFrame_trans {p q r : String × Entity} (h1 : keyFrame p q) (h2 : keyFrame q r) :
    keyFrame p r := by
  obtain ⟨hk1, a1, b1, c1, d1, e1, f1, g1⟩ := h1
  obtain ⟨hk2, a2, b2, c2, d2, e2, f2, g2⟩ := h2
  exact ⟨hk2.trans hk1, a2.trans a1, b2.trans b1, c2.trans c1, d2.trans d1,
    e2.trans e1, f2.trans f1, g2.trans g1⟩

theorem forall₂_keyFrame_refl : ∀ l : List (String × Entity), List.Forall₂ keyFrame l l
  | [] => List.Forall₂.nil
  | p :: rest => List.Forall₂.cons (keyFrame_refl p) (forall₂_keyFrame_refl rest)

theorem forall₂_keyFrame_trans :
    ∀ {a b c : List (String × Entity)}, List.Forall₂ keyFrame a b → List.Forall₂ keyFrame b c →
      List.Forall₂ keyFrame a c := by
  intro a
  induction a with
  | nil =>
    intro b c h1 h2
    cases h1
    cases h2
    exact List.Forall₂.nil
  | cons p rest ih =>
    intro b c h1 h2
    cases h1 with
    | cons hpq h1rest =>
      cases h2 with
      | cons hqr h2rest => exact List.Forall₂.cons (keyFrame_trans hpq hqr) (ih h1rest h2rest)

theorem forall₂_keyFrame_fst {l l2 : List (String × Entity)}
    (h : List.Forall₂ keyFrame l l2) : l2.map Prod.fst = l.map Prod.fst := by
  induction h with
  | nil => rfl
  | cons hpq _ ih => simp [ih, hpq.1]

theorem lookupKV_eq_none_iff {α : Type} (l : List (String × α)) (k : String) :
    lookupKV l k = none ↔ k ∉ l.map Prod.fst := by
  induction l with
  | nil => simp [lookupKV]
  | cons p rest ih =>
    by_cases h : p.1 = k
    · subst h
      simp [lookupKV]
    · have h2 : ¬ k = p.1 := fun he => h he.symm
      simp [lookupKV, h, h2, ih]

theorem updateFirst_lookup_self {α : Type} :
    ∀ {l : List (String × α)} {k : String} {e : α}, lookupKV l k = some e →
      ∀ v, lookupKV (updateFirst l k v) k = some v := by
  intro l
  induction l with
  | nil => intro k e h v; simp [lookupKV] at h
  | cons p rest ih =>
    intro k e h v
    by_cases hp : p.1 = k
    · simp [updateFirst, lookupKV, hp]
    · simp only [lookupKV, if_neg hp] at h
      simp [updateFirst, lookupKV, if_neg hp, ih h]

theorem updateFirst_lookup_other {α : Type} :
    ∀ (l : List (String × α)) {k k2 : String}, k2 ≠ k →
      ∀ v, lookupKV (updateFirst l k v) k2 = lookupKV l k2 := by
  intro l
  induction l with
  | nil => intro k k2 hne v; simp [updateFirst]
  | cons p rest ih =>
    intro k k2 hne v
    by_cases hp : p.1 = k
    · have hp2 : ¬ p.1 = k2 := by rw [hp]; exact Ne.symm hne
      simp only [updateFirst, if_pos hp, lookupKV]
      rw [if_neg (hp ▸ hp2), if_neg hp2]
    · simp only [updateFirst, if_neg hp, lookupKV]
      rw [ih hne]

theorem updateFirst_keyFrame :
    ∀ {l : List (String × Entity)} {k : String} {e e2 : Entity}, lookupKV l k = some e →
      sameNonDelta e e2 → List.Forall₂ keyFrame l (updateFirst l k e2) := by
  intro l
  induction l with
  | nil => intro k e e2 h hs; simp [lookupKV] at h
  | cons p rest ih =>
    intro k e e2 h hs
    by_cases hp : p.1 = k
    · simp only [lookupKV, if_pos hp] at h
      have hpe : p.2 = e := Option.some.inj h
      simp only [updateFirst, if_pos hp]
      refine List.Forall₂.cons ⟨rfl, ?_⟩ (forall₂_keyFrame_refl rest)
      rw [hpe]
      exact hs
    · simp only [lookupKV, if_neg hp] at h
      simp only [updateFirst, if_neg hp]
      exact List.Forall₂.cons (keyFrame_refl p) (ih h hs)

theorem injectDeltas_spec {e : Entity} {dv : DeltaRec} {e2 : Entity}
    (h : injectDeltas e dv = some e2) :
    sameNonDelta e e2 ∧ e2.views_delta = some dv.views_delta ∧ pctInv e2 := by
  cases hvd : dv.views_delta with
  | na =>
    simp only [injectDeltas, hvd, Option.pure_def, Option.some_inj] at h
    subst h
    refine ⟨⟨rfl, rfl, rfl, rfl, rfl, rfl, rfl⟩, by simp [hvd], ?_⟩
    intro vd2 hv2
    have hv3 : Val.na = vd2 := Option.some.inj hv2
    refine ⟨Val.na, rfl, fun _ => rfl, ?_⟩
    intro n hn
    rw [← hv3] at hn
    simp at hn
  | num q =>
    simp only [injectDeltas, hvd, Option.pure_def, Option.some_inj] at h
    subst h
    refine ⟨⟨rfl, rfl, rfl, rfl, rfl, rfl, rfl⟩, by simp [hvd], ?_⟩
    intro vd2 hv2
    have hv3 : Val.num q = vd2 := Option.some.inj hv2
    refine ⟨Val.na, rfl, fun _ => rfl, ?_⟩
    intro n hn
    rw [← hv3] at hn
    simp at hn
  | int vd =>
    simp only [injectDeltas, hvd] at h
    cases he : e.views with
    | none =>
      rw [show ∀ x : Entity, x.views = x.views from fun _ => rfl] at h
      rw [he] at h
      simp at h
    | some v =>
      rw [he] at h
      simp only [Option.bind_eq_bind, Option.some_bind] at h
      cases hps : pySub v (Val.int vd) with
      | none => rw [hps] at h; simp at h
      | some pv =>
        rw [hps] at h
        simp only [Option.bind_eq_bind, Option.some_bind] at h
        cases hpp : pyPos pv with
        | none => rw [hpp] at h; simp at h
        | some pos =>
          rw [hpp] at h
          simp only [Option.bind_eq_bind, Option.some_bind, Option.pure_def, Option.some_inj] at h
          subst h
          refine ⟨⟨rfl, rfl, rfl, he.symm, rfl, rfl, rfl⟩, by simp [hvd], ?_⟩
          intro vd2 hv2
          have hv3 : Val.int vd = vd2 := Option.some.inj (by simpa [hvd] using hv2)
          refine ⟨if pos then Val.num (pctCompute vd pv) else Val.na, rfl, ?_, ?_⟩
          · intro hbad
            exfalso
            rw [← hv3] at hbad
            rcases hbad with hb | ⟨q, hb⟩ <;> simp at hb
          · intro n hn
            rw [← hv3] at hn
            injection hn with hnn
            subst hnn
            refine ⟨v, pv, rfl, hps, ?_⟩
            cases pv with
            | na => simp [pyPos] at hpp
            | int m =>
              have hpos : pos = decide (0 < valToQ (Val.int m)) :=
                (Option.some.inj hpp).symm
              rw [hpos]
              simp only [decide_eq_true_eq]
            | num qq =>
              have hpos : pos = decide (0 < valToQ (Val.num qq)) :=
                (Option.some.inj hpp).symm
              rw [hpos]
              simp only [decide_eq_true_eq]

theorem applyLoop_keyFrame :
    ∀ {ds : List (String × DeltaRec)} {vs vs' : List (String × Entity)},
      applyLoop ds vs = some vs' → List.Forall₂ keyFrame vs vs' := by
  intro ds
  induction ds with
  | nil =>
    intro vs vs' h
    simp only [applyLoop, Option.some_inj] at h
    rw [← h]
    exact forall₂_keyFrame_refl vs
  | cons kd rest ih =>
    intro vs vs' h
    simp only [applyLoop] at h
    split at h
    next hl => exact ih h
    next e hl =>
      split at h
      next hi => exact absurd h (by simp)
      next e2 hi =>
        exact forall₂_keyFrame_trans (updateFirst_keyFrame hl (injectDeltas_spec hi).1) (ih h)

theorem applyLoop_lookup_not_mem :
    ∀ {ds : List (String × DeltaRec)} {vs vs' : List (String × Entity)} {k : String},
      k ∉ ds.map Prod.fst → applyLoop ds vs = some vs' → lookupKV vs' k = lookupKV vs k := by
  intro ds
  induction ds with
  | nil =>
    intro vs vs' k _ h
    simp only [applyLoop, Option.some_inj] at h
    rw [h]
  | cons kd rest ih =>
    intro vs vs' k hk h
    simp only [List.map_cons, List.mem_cons] at hk
    push_neg at hk
    simp only [applyLoop] at h
    split at h
    next hl => exact ih hk.2 h
    next e hl =>
      split at h
      next hi => exact absurd h (by simp)
      next e2 hi =>
        rw [ih hk.2 h]
        exact updateFirst_lookup_other vs hk.1 e2

theorem applyLoop_pctInv :
    ∀ {ds : List (String × DeltaRec)} {vs vs' : List (String × Entity)},
      applyLoop ds vs = some vs' → ∀ k, k ∈ ds.map Prod.fst →
      ∀ e2, lookupKV vs' k = some e2 → pctInv e2 := by
  intro ds
  induction ds with
  | nil =>
    intro vs vs' _ k hk
    simp at hk
  | cons kd rest ih =>
    intro vs vs' h k hk e2 hl2
    simp only [List.map_cons, List.mem_cons] at hk
    simp only [applyLoop] at h
    split at h
    next hl =>
      by_cases hmem : k ∈ rest.map Prod.fst
      · exact ih h k hmem e2 hl2
      · have hkk : k = kd.1 := hk.resolve_right hmem
        subst hkk
        rw [applyLoop_lookup_not_mem hmem h, hl] at hl2
        exact absurd hl2 (by simp)
    next e hl =>
      split at h
      next hi => exact absurd h (by simp)
      next e3 hi =>
        by_cases hmem : k ∈ rest.map Prod.fst
        · exact ih h k hmem e2 hl2
        · have hkk : k = kd.1 := hk.resolve_right hmem
          subst hkk
          rw [applyLoop_lookup_not_mem hmem h, updateFirst_lookup_self hl e3] at hl2
          obtain rfl : e3 = e2 := Option.some.inj hl2
          exact (injectDeltas_spec hi).2.2

end ApplyLemmas

theorem compute_deltas_keys {prev : Option Snapshot} {cur : Snapshot}
    {ds : List (String × DeltaRec)} (h : compute_deltas_all prev cur = some ds) :
    ds.map Prod.fst = cur.videosD.map Prod.fst := by
  cases prev with
  | none =>
    simp only [compute_deltas_all, Option.some_inj] at h
    rw [← h]
    simp
  | some p =>
    cases hv : p.videos with
    | none =>
      simp only [compute_deltas_all, hv, Option.some_inj] at h
      rw [← h]
      simp
    | some pvs =>
      exact computeEntries_keys (by simpa [compute_deltas_all, hv] using h)

theorem lookupKV_some_mem {α : Type} {l : List (String × α)} {k : String} {x : α}
    (h : lookupKV l k = some x) : k ∈ l.map Prod.fst := by
  by_contra hno
  rw [← lookupKV_eq_none_iff l k] at hno
  rw [hno] at h
  cases h

/-- Claim C9: `apply_deltas_to_snapshot` returns the current snapshot with
the same entity key list and the same timestamp, and changes each entity
record at most in the five delta fields; a `None` current snapshot, or one
without a `videos` mapping, is returned entirely unchanged. -/
theorem c9_apply_frame (prev cur : Option Snapshot) (r : Option Snapshot)
    (h : apply_deltas_to_snapshot prev cur = some r) :
    (cur = none → r = none) ∧
    (∀ c, cur = some c → ∃ s2, r = some s2 ∧ s2.timestamp = c.timestamp ∧
      (c.videos = none → s2 = c) ∧
      (∀ cvs, c.videos = some cvs → ∃ nvs, s2.videos = some nvs ∧
        nvs.map Prod.fst = cvs.map Prod.fst ∧ List.Forall₂ keyFrame cvs nvs)) := by
  cases cur with
  | none =>
    simp only [apply_deltas_to_snapshot, Option.some_inj] at h
    exact ⟨fun _ => h.symm, fun c hc => by cases hc⟩
  | some c =>
    cases hcv : c.videos with
    | none =>
      simp only [apply_deltas_to_snapshot, hcv, Option.some_inj] at h
      refine ⟨(fun hc => by cases hc), fun c2 hc2 => ?_⟩
      obtain rfl : c = c2 := Option.some.inj hc2
      refine ⟨c, h.symm, rfl, fun _ => rfl, ?_⟩
      intro cvs hcvs
      rw [hcv] at hcvs
      cases hcvs
    | some cvs0 =>
      simp only [apply_deltas_to_snapshot, hcv] at h
      cases hds : compute_deltas_all prev c with
      | none => rw [hds] at h; simp at h
      | some ds =>
        rw [hds] at h
        simp only [Option.bind_eq_bind, Option.some_bind] at h
        cases hal : applyLoop ds cvs0 with
        | none => rw [hal] at h; simp at h
        | some nvs =>
          rw [hal] at h
          simp only [Option.bind_eq_bind, Option.some_bind, Option.pure_def,
            Option.some_inj] at h
          refine ⟨(fun hc => by cases hc), fun c2 hc2 => ?_⟩
          obtain rfl : c = c2 := Option.some.inj hc2
          refine ⟨{ c with videos := some nvs }, h.symm, rfl, ?_, ?_⟩
          · intro hnone
            rw [hcv] at hnone
            cases hnone
          · intro cvs hcvs
            rw [hcv] at hcvs
            obtain rfl : cvs0 = cvs := Option.some.inj hcvs
            have hkf := applyLoop_keyFrame hal
            exact ⟨nvs, rfl, forall₂_keyFrame_fst hkf, hkf⟩

/-- Claim C3: after `apply_deltas_to_snapshot`, an entity's
`views_delta_pct` is the "N/A" sentinel exactly when its `views_delta` is
"N/A" or the reconstructed baseline `current_views - views_delta` is ≤ 0;
otherwise it equals `round(views_delta / prev_views * 100, 2)`. -/
theorem c3_views_delta_pct (prev : Option Snapshot) (cur s2 : Snapshot) (k : String)
    (e2 : Entity) (cv : ℤ) (vd : Val)
    (h : apply_deltas_to_snapshot prev (some cur) = some (some s2))
    (hk : lookupKV s2.videosD k = some e2)
    (hv : e2.views = some (Val.int cv))
    (hvd : e2.views_delta = some vd)
    (hshape : vd = Val.na ∨ ∃ n, vd = Val.int n) :
    (e2.views_delta_pct = some Val.na ↔
      (vd = Val.na ∨ ∃ n, vd = Val.int n ∧ cv - n ≤ 0)) ∧
    (∀ n, vd = Val.int n → 0 < cv - n →
      e2.views_delta_pct = some (Val.num (roundQ2 (((n : ℚ) / ((cv : ℚ) - (n : ℚ))) * 100)))) := by
  cases hcv2 : cur.videos with
  | none =>
    simp only [apply_deltas_to_snapshot, hcv2, Option.some_inj] at h
    obtain rfl : cur = s2 := h
    rw [Snapshot.videosD, hcv2] at hk
    cases hk
  | some cvs =>
    simp only [apply_deltas_to_snapshot, hcv2] at h
    cases hds : compute_deltas_all prev cur with
    | none => rw [hds] at h; simp at h
    | some ds =>
      rw [hds] at h
      simp only [Option.bind_eq_bind, Option.some_bind] at h
      cases hal : applyLoop ds cvs with
      | none => rw [hal] at h; simp at h
      | some nvs =>
        rw [hal] at h
        simp only [Option.bind_eq_bind, Option.some_bind, Option.pure_def,
          Option.some_inj] at h
        obtain rfl : ({ cur with videos := some nvs } : Snapshot) = s2 := h
        have hk2 : lookupKV nvs k = some e2 := by
          simpa [Snapshot.videosD] using hk
        have hkm : k ∈ ds.map Prod.fst := by
          have h1 : k ∈ nvs.map Prod.fst := lookupKV_some_mem hk2
          rw [forall₂_keyFrame_fst (applyLoop_keyFrame hal)] at h1
          rw [compute_deltas_keys hds]
          rw [Snapshot.videosD, hcv2]
          exact h1
        have hinv := applyLoop_pctInv hal k hkm e2 hk2
        obtain ⟨pct, hpct, hna, hint⟩ := hinv vd hvd
        rcases hshape with rfl | ⟨n, rfl⟩
        · have hpna : pct = Val.na := hna (Or.inl rfl)
          constructor
          · rw [hpct, hpna]
            simp
          · intro n hn
            cases hn
        · obtain ⟨v, pv, hev, hps, hpcteq⟩ := hint n rfl
          rw [hev] at hv
          obtain rfl : v = Val.int cv := Option.some.inj hv
          have hpveq : pv = Val.int (cv - n) := Option.some.inj hps.symm
          subst hpveq
          by_cases hpos : 0 < cv - n
          · have hq : (0 : ℚ) < valToQ (Val.int (cv - n)) := by
              show (0 : ℚ) < ((cv - n : ℤ) : ℚ)
              exact_mod_cast hpos
            rw [if_pos hq] at hpcteq
            constructor
            · rw [hpct, hpcteq]
              constructor
              · intro hcontra
                simp at hcontra
              · intro hrhs
                exfalso
                rcases hrhs with hh | ⟨n2, hn2, hle⟩
                · cases hh
                · injection hn2 with h3
                  omega
            · intro n2 hn2 hpos2
              injection hn2 with h3
              subst h3
              rw [hpct, hpcteq]
              have hcast : valToQ (Val.int (cv - n)) = (cv : ℚ) - (n : ℚ) := by
                show ((cv - n : ℤ) : ℚ) = (cv : ℚ) - (n : ℚ)
                push_cast
                ring
              simp only [pctCompute, hcast]
          · have hq : ¬ (0 : ℚ) < valToQ (Val.int (cv - n)) := by
              show ¬ (0 : ℚ) < ((cv - n : ℤ) : ℚ)
              exact_mod_cast hpos
            rw [if_neg hq] at hpcteq
            constructor
            · rw [hpct, hpcteq]
              constructor
              · intro _
                exact Or.inr ⟨n, rfl, by omega⟩
              · intro _
                rfl
            · intro n2 hn2 hpos2
              injection hn2 with h3
              subst h3
              exact absurd hpos2 hpos

/-- Witness for claim C3 at a concrete pair of snapshots. -/
theorem c3_witness :
    ((c3ent.views_delta_pct = some Val.na ↔
        (Val.int 5000 = Val.na ∨ ∃ n, Val.int 5000 = Val.int n ∧ 5000 - n ≤ 0)) ∧
      (∀ n, Val.int 5000 = Val.int n → 0 < 5000 - n →
        c3ent.views_delta_pct =
          some (Val.num (roundQ2 (((n : ℚ) / ((5000 : ℚ) - (n : ℚ))) * 100))))) :=
  c3_views_delta_pct (some c3prev) c3cur c3res "v1" c3ent 5000 (Val.int 5000)
    (by decide) (by decide) rfl rfl (Or.inr ⟨5000, rfl⟩)

/-- Witness for claim C9 at a concrete pair of snapshots. -/
theorem c9_witness :
    ((some c9cur = none → some c9res = (none : Option Snapshot)) ∧
      (∀ c, some c9cur = some c → ∃ s2, some c9res = some s2 ∧ s2.timestamp = c.timestamp ∧
        (c.videos = none → s2 = c) ∧
        (∀ cvs, c.videos = some cvs → ∃ nvs, s2.videos = some nvs ∧
          nvs.map Prod.fst = cvs.map Prod.fst ∧ List.Forall₂ keyFrame cvs nvs))) :=
  c9_apply_frame none (some c9cur) (some c9res) (by decide)

section RankLemmas

theorem rowOf_eq_filter (metric : String) (kv : String × Entity) :
    rowOf metric kv =
      if claimQualifies metric kv.2 then some (mkRow metric kv.1 kv.2) else none := by
  rcases kv with ⟨k, e⟩
  simp only [rowOf, claimQualifies]
  cases hv : e.views with
  | none =>
    simp [MIN_VIEWS_FOR_DISPLAY]
  | some v0 =>
    cases v0 with
    | na => simp
    | num q => simp
    | int v =>
      by_cases hm : v < MIN_VIEWS_FOR_DISPLAY
      · have h1 : ¬ MIN_VIEWS_FOR_DISPLAY ≤ v := by omega
        simp [hm, h1]
      · have h0 : 0 ≤ v := by
          unfold MIN_VIEWS_FOR_DISPLAY at hm
          omega
        have h1 : MIN_VIEWS_FOR_DISPLAY ≤ v := not_lt.mp hm
        by_cases hmv : metric = "views"
        · simp [hm, hmv, h0, h1]
        · cases hg : pyGet e metric with
          | none => simp [hm, hmv, h0, h1, hg]
          | some g => cases g <;> simp [hm, hmv, h0, h1, hg]

theorem rowsOf_eq_filter (s : Snapshot) (metric : String) :
    rowsOf s metric =
      (s.videosD.filter fun kv => claimQualifies metric kv.2).map
        fun kv => mkRow metric kv.1 kv.2 := by
  unfold rowsOf
  induction s.videosD with
  | nil => rfl
  | cons kv rest ih =>
    by_cases hq : claimQualifies metric kv.2
    · simp [List.filterMap_cons, rowOf_eq_filter, hq, ih]
    · simp [List.filterMap_cons, rowOf_eq_filter, hq, ih]

theorem mem_insertDesc {r x : Row} {l : List Row} :
    r ∈ insertDesc x l ↔ r = x ∨ r ∈ l := by
  induction l with
  | nil => simp [insertDesc]
  | cons y ys ih =>
    by_cases h : valToQ x.delta < valToQ y.delta
    · simp only [insertDesc, if_pos h, List.mem_cons, ih]
      tauto
    · simp only [insertDesc, if_neg h, List.mem_cons]

theorem mem_sortDesc {r : Row} {l : List Row} : r ∈ sortDesc l ↔ r ∈ l := by
  induction l with
  | nil => simp [sortDesc]
  | cons x xs ih => simp [sortDesc, mem_insertDesc, ih]

theorem pairwise_insertDesc {l : List Row} (r : Row)
    (h : l.Pairwise fun a b => valToQ b.delta ≤ valToQ a.delta) :
    (insertDesc r l).Pairwise fun a b => valToQ b.delta ≤ valToQ a.delta := by
  induction l with
  | nil => simp [insertDesc]
  | cons x xs ih =>
    rw [List.pairwise_cons] at h
    by_cases hlt : valToQ r.delta < valToQ x.delta
    · rw [insertDesc, if_pos hlt, List.pairwise_cons]
      refine ⟨?_, ih h.2⟩
      intro a ha
      rcases mem_insertDesc.mp ha with rfl | ha2
      · exact le_of_lt hlt
      · exact h.1 a ha2
    · rw [insertDesc, if_neg hlt, List.pairwise_cons]
      refine ⟨?_, List.pairwise_cons.mpr h⟩
      intro a ha
      rcases List.mem_cons.mp ha with rfl | ha2
      · exact not_lt.mp hlt
      · exact le_trans (h.1 a ha2) (not_lt.mp hlt)

theorem pairwise_sortDesc :
    ∀ l : List Row, (sortDesc l).Pairwise fun a b => valToQ b.delta ≤ valToQ a.delta
  | [] => List.Pairwise.nil
  | x :: xs => pairwise_insertDesc x (pairwise_sortDesc xs)

theorem filter_insertDesc (q : ℚ) (r : Row) (l : List Row) :
    (insertDesc r l).filter (fun x => decide (valToQ x.delta = q)) =
      if valToQ r.delta = q
      then r :: l.filter (fun x => decide (valToQ x.delta = q))
      else l.filter (fun x => decide (valToQ x.delta = q)) := by
  induction l with
  | nil =>
    by_cases h : valToQ r.delta = q <;> simp [insertDesc, h]
  | cons x xs ih =>
    by_cases hlt : valToQ r.delta < valToQ x.delta
    · rw [insertDesc, if_pos hlt]
      by_cases hr : valToQ r.delta = q
      · have hx : ¬ valToQ x.delta = q := by
          rw [← hr]
          exact fun he => absurd (he ▸ hlt) (lt_irrefl _)
        simp [List.filter_cons, hx, ih, hr]
      · by_cases hx : valToQ x.delta = q <;> simp [List.filter_cons, hx, ih, hr]
    · rw [insertDesc, if_neg hlt]
      by_cases hr : valToQ r.delta = q <;> simp [List.filter_cons, hr]

theorem filter_sortDesc (q : ℚ) :
    ∀ l : List Row, (sortDesc l).filter (fun x => decide (valToQ x.delta = q)) =
      l.filter (fun x => decide (valToQ x.delta = q)) := by
  intro l
  induction l with
  | nil => rfl
  | cons x xs ih =>
    rw [sortDesc, filter_insertDesc]
    by_cases hx : valToQ x.delta = q <;> simp [List.filter_cons, hx, ih]

end RankLemmas

/-- Claim C4 (counterexample): with `n = 0`, an entity that satisfies the
claim's candidate condition does not appear in the result of
`get_top_videos_by_metric`, so membership in the result is not equivalent
to the condition. -/
theorem c4_counterexample :
    ¬ ((∃ r ∈ get_top_videos_by_metric c4snap "views" 0, r.video_key = "v1") ↔
        claimQualifies "views" c4ent = true) := by decide

/-- Claim C4 (amended): an entity appears among the ranked candidate rows
(the result before truncation to `n`) exactly when its views field is a
concrete integer at least the display threshold and, for the delta
metrics, the metric field is a concrete number; and every row of the
truncated result is one of those candidate rows.  In particular ranking by
`views` never excludes an entity solely for lacking delta fields. -/
theorem c4_filter_amended (s : Snapshot) (metric : String) :
    rowsOf s metric =
      (s.videosD.filter fun kv => claimQualifies metric kv.2).map
        (fun kv => mkRow metric kv.1 kv.2) ∧
    ∀ n r, r ∈ get_top_videos_by_metric s metric n → r ∈ rowsOf s metric := by
  refine ⟨rowsOf_eq_filter s metric, ?_⟩
  intro n r hr
  unfold get_top_videos_by_metric at hr
  exact mem_sortDesc.mp (List.take_subset n _ hr)

/-- Claim C5: the ranked result has at most `n` rows, is sorted descending
by the chosen metric's value, breaks ties by preserving the candidate
order (for each value, the rows with that value form a prefix of the
candidate rows with that value, in order), and is empty when the snapshot
has no entities or none pass the filter. -/
theorem c5_ranking_shape (s : Snapshot) (metric : String) (n : ℕ) :
    (get_top_videos_by_metric s metric n).length ≤ n ∧
    (get_top_videos_by_metric s metric n).Pairwise
      (fun a b => valToQ b.delta ≤ valToQ a.delta) ∧
    (∀ q : ℚ, (get_top_videos_by_metric s metric n).filter
        (fun r => decide (valToQ r.delta = q)) <+:
      (rowsOf s metric).filter (fun r => decide (valToQ r.delta = q))) ∧
    (s.videosD = [] → get_top_videos_by_metric s metric n = []) ∧
    (rowsOf s metric = [] → get_top_videos_by_metric s metric n = []) := by
  refine ⟨List.length_take_le n _, ?_, ?_, ?_, ?_⟩
  · exact (pairwise_sortDesc (rowsOf s metric)).sublist (List.take_sublist n _)
  · intro q
    have h1 : (get_top_videos_by_metric s metric n).filter
        (fun r => decide (valToQ r.delta = q)) <+:
        (sortDesc (rowsOf s metric)).filter (fun r => decide (valToQ r.delta = q)) :=
      (List.take_prefix n _).filter _
    rw [filter_sortDesc] at h1
    exact h1
  · intro hempty
    unfold get_top_videos_by_metric rowsOf
    rw [hempty]
    simp [sortDesc]
  · intro hempty
    unfold get_top_videos_by_metric
    rw [hempty]
    simp [sortDesc]

/-- Claim C6 (counterexample): an existing snapshot file whose read fails
at the OS level makes `load_previous_data` raise instead of returning
`None` (only `json.JSONDecodeError` is caught). -/
theorem c6_counterexample :
    load_previous_data FileOutcome.unreadable = Except.error "OSError" := rfl

/-- Claim C6 (amended): `load_previous_data` returns `None` when the file
is missing, fails JSON decoding, or decodes to a non-dict document (but an
OS-level read error propagates), and `get_last_option5_run` never raises:
it returns a value for every file state. -/
theorem c6_failsoft_amended :
    load_previous_data FileOutcome.absent = Except.ok none ∧
    load_previous_data FileOutcome.decodeError = Except.ok none ∧
    load_previous_data (FileOutcome.json SnapDoc.nonDict) = Except.ok none ∧
    (∀ f : FileOutcome LastRunDoc, ∃ r, get_last_option5_run f = Except.ok r) := by
  refine ⟨rfl, rfl, rfl, ?_⟩
  intro f
  cases f with
  | absent => exact ⟨none, rfl⟩
  | unreadable => exact ⟨none, rfl⟩
  | decodeError => exact ⟨none, rfl⟩
  | json d =>
    cases d with
    | valid t => exact ⟨some t, rfl⟩
    | invalid => exact ⟨none, rfl⟩

theorem fetchStatsAux_ok (w : World) (h2 : ∀ b, w.videoStats b ≠ ReqOutcome.exn) :
    ∀ ids acc, ∃ r, fetchStatsAux w ids acc = Except.ok r := by
  have hmain : ∀ n ids, List.length ids ≤ n → ∀ acc, ∃ r, fetchStatsAux w ids acc = Except.ok r := by
    intro n
    induction n with
    | zero =>
      intro ids hlen acc
      have : ids = [] := List.eq_nil_of_length_eq_zero (Nat.le_zero.mp hlen)
      subst this
      exact ⟨acc, by simp [fetchStatsAux]⟩
    | succ n ih =>
      intro ids hlen acc
      match ids with
      | [] => exact ⟨acc, by simp [fetchStatsAux]⟩
      | a :: l =>
        cases hvs : w.videoStats ((a :: l).take 50) with
        | ok items =>
          have hlen2 : ((a :: l).drop 50).length ≤ n := by
            rw [List.length_drop]
            simp only [List.length_cons] at hlen ⊢
            omega
          obtain ⟨r, hr⟩ := ih _ hlen2 (items.foldl (fun m p => dictAssign m p.1 p.2) acc)
          refine ⟨r, ?_⟩
          rw [fetchStatsAux, hvs]
          exact hr
        | httpError =>
          exact ⟨acc, by rw [fetchStatsAux, hvs]⟩
        | exn => exact absurd hvs (h2 _)
  intro ids acc
  exact hmain ids.length ids (le_refl _) acc

/-- Claim C7 (counterexample): a non-HTTP exception on the single
video-stats batch escapes `build_snapshot_from_channels_and_keywords`
even though the channel lookup succeeded. -/
theorem c7_counterexample :
    build_snapshot_from_channels_and_keywords c7world "KEY" c7cfg [] 5 3 =
      Except.error "RequestException" := by
  have hne : ¬ ("KEY" : String) = "" := by decide
  have hf : fetch_youtube_stats_for_videos c7world "KEY" ["v1"] =
      Except.error "RequestException" := by
    unfold fetch_youtube_stats_for_videos
    rw [if_neg hne, fetchStatsAux]
    rfl
  have hd : (discoverAll c7world "KEY" c7cfg [] 5 3).1 = ["v1"] := by decide
  simp only [build_snapshot_from_channels_and_keywords, if_neg hne, hd]
  rw [if_neg (by decide : ¬(["v1"] : List String).isEmpty = true), hf]
  rfl

/-- Claim C7 (amended): a failing channel or keyword lookup is caught and
skipped, so the build returns a snapshot whenever the configuration error
is absent and no video-stats batch call raises a non-HTTP exception; a
non-HTTP exception on a stats batch escapes the build, and an HTTP error
on a stats batch ends stats collection with the batches fetched so far. -/
theorem except_bind_ok {α β : Type} (a : α) (f : α → Except String β) :
    (Except.ok a >>= f) = f a := rfl

theorem discoverChannels_skip_failed (w : World) (apiKey : String) (mc : ℕ)
    (ch : ChannelCfg) (chId e : String)
    (hchid : ch.channel_id = some chId) (hne : chId ≠ "")
    (hfail : fetch_latest_video_ids_for_channel_via_playlist w apiKey chId mc =
      Except.error e) :
    ∀ (cfg1 cfg2 : List ChannelCfg) (st : List String × List MetaRec),
      discoverChannels w apiKey mc (cfg1 ++ ch :: cfg2) st =
        discoverChannels w apiKey mc (cfg1 ++ cfg2) st := by
  intro cfg1
  induction cfg1 with
  | nil =>
    intro cfg2 st
    simp only [List.nil_append]
    rw [discoverChannels]
    split
    next heq => exact absurd heq (by simp [hchid])
    next cid heq =>
      rw [hchid] at heq
      obtain rfl : chId = cid := Option.some.inj heq
      rw [if_neg hne]
      split
      next hf => rfl
      next ids hf => exact absurd hf (by simp [hfail])
  | cons c cfg1x ih =>
    intro cfg2 st
    simp only [List.cons_append, discoverChannels]
    split
    · exact ih cfg2 st
    · split
      · exact ih cfg2 st
      · split
        · exact ih cfg2 st
        · exact ih cfg2 _

theorem foldQueries_skip (w : World) (apiKey : String) (mk : ℕ) (kwKey kwLabel q e : String)
    (hfail : fetch_video_ids_for_keyword w apiKey q mk = Except.error e) :
    ∀ (q1s q2s : List String) (st : List String × List MetaRec),
      (q1s ++ q :: q2s).foldl
        (fun stq q2 =>
          match fetch_video_ids_for_keyword w apiKey q2 mk with
          | .error _ => stq
          | .ok ids => addIds ids "keyword" kwKey kwLabel stq) st =
      (q1s ++ q2s).foldl
        (fun stq q2 =>
          match fetch_video_ids_for_keyword w apiKey q2 mk with
          | .error _ => stq
          | .ok ids => addIds ids "keyword" kwKey kwLabel stq) st := by
  intro q1s
  induction q1s with
  | nil =>
    intro q2s st
    simp only [List.nil_append, List.foldl_cons]
    rw [hfail]
  | cons q0 q1x ih =>
    intro q2s st
    simp only [List.cons_append, List.foldl_cons]
    exact ih q2s _

theorem discoverKeywords_skip_failed_query (w : World) (apiKey : String) (mk : ℕ)
    (kw : KeywordCfg) (q e : String) (q1s q2s : List String)
    (hqs : kw.queries = some (q1s ++ q :: q2s))
    (hfail : fetch_video_ids_for_keyword w apiKey q mk = Except.error e) :
    ∀ (cfg1 cfg2 : List KeywordCfg) (st : List String × List MetaRec),
      discoverKeywords w apiKey mk (cfg1 ++ kw :: cfg2) st =
        discoverKeywords w apiKey mk
          (cfg1 ++ { kw with queries := some (q1s ++ q2s) } :: cfg2) st := by
  intro cfg1
  induction cfg1 with
  | nil =>
    intro cfg2 st
    simp only [List.nil_append, discoverKeywords]
    refine congrArg (discoverKeywords w apiKey mk cfg2) ?_
    rw [hqs]
    exact foldQueries_skip w apiKey mk (kw.key.getD "keyword")
      (kw.label.getD (kw.key.getD "keyword")) q e hfail q1s q2s st
  | cons c cfg1x ih =>
    intro cfg2 st
    simp only [List.cons_append, discoverKeywords]
    exact ih cfg2 _

/-- Claim C7 (amended): a failing channel lookup or keyword query is
caught and skipped and the build continues with the remaining
sub-sources: the build's result is identical to the build over the
configuration without that sub-source, so the returned snapshot contains
exactly the entities obtained from the remaining sub-sources.  Stats
batch failures are only partially contained: an HTTP error status on a
video-stats batch ends stats collection, returning exactly the stats
accumulated from earlier batches (entities of this and later batches are
dropped), and a non-HTTP exception on a stats batch escapes the build.
When the API key is configured and no stats batch raises a non-HTTP
exception, no exception escapes the build. -/
theorem c7_build_containment_amended (w : World) (apiKey : String)
    (ccfg : List ChannelCfg) (kcfg : List KeywordCfg) (mc mk : ℕ) :
    (∀ (cfg1 cfg2 : List ChannelCfg) (ch : ChannelCfg) (chId e : String),
      ch.channel_id = some chId → chId ≠ "" →
      fetch_latest_video_ids_for_channel_via_playlist w apiKey chId mc = Except.error e →
      build_snapshot_from_channels_and_keywords w apiKey (cfg1 ++ ch :: cfg2) kcfg mc mk =
        build_snapshot_from_channels_and_keywords w apiKey (cfg1 ++ cfg2) kcfg mc mk) ∧
    (∀ (cfg1 cfg2 : List KeywordCfg) (kw : KeywordCfg) (q e : String) (q1s q2s : List String),
      kw.queries = some (q1s ++ q :: q2s) →
      fetch_video_ids_for_keyword w apiKey q mk = Except.error e →
      build_snapshot_from_channels_and_keywords w apiKey ccfg (cfg1 ++ kw :: cfg2) mc mk =
        build_snapshot_from_channels_and_keywords w apiKey ccfg
          (cfg1 ++ { kw with queries := some (q1s ++ q2s) } :: cfg2) mc mk) ∧
    (∀ (a : String) (l : List String) (acc : List (String × Stats)),
      w.videoStats ((a :: l).take 50) = ReqOutcome.httpError →
      fetchStatsAux w (a :: l) acc = Except.ok acc) ∧
    (apiKey ≠ "" → (∀ b, w.videoStats b ≠ ReqOutcome.exn) →
      ∃ s, build_snapshot_from_channels_and_keywords w apiKey ccfg kcfg mc mk =
        Except.ok s) := by
  refine ⟨?_, ?_, ?_, ?_⟩
  · intro cfg1 cfg2 ch chId e hchid hne hfail
    have hda : discoverAll w apiKey (cfg1 ++ ch :: cfg2) kcfg mc mk =
        discoverAll w apiKey (cfg1 ++ cfg2) kcfg mc mk := by
      unfold discoverAll
      rw [discoverChannels_skip_failed w apiKey mc ch chId e hchid hne hfail cfg1 cfg2]
    unfold build_snapshot_from_channels_and_keywords
    rw [hda]
  · intro cfg1 cfg2 kw q e q1s q2s hqs hfail
    have hda : discoverAll w apiKey ccfg (cfg1 ++ kw :: cfg2) mc mk =
        discoverAll w apiKey ccfg
          (cfg1 ++ { kw with queries := some (q1s ++ q2s) } :: cfg2) mc mk := by
      unfold discoverAll
      exact discoverKeywords_skip_failed_query w apiKey mk kw q e q1s q2s hqs hfail
        cfg1 cfg2 _
    unfold build_snapshot_from_channels_and_keywords
    rw [hda]
  · intro a l acc h
    rw [fetchStatsAux, h]
  · intro h1 h2
    simp only [build_snapshot_from_channels_and_keywords, if_neg h1]
    by_cases hemp : (discoverAll w apiKey ccfg kcfg mc mk).1.isEmpty
    · rw [if_pos hemp]
      exact ⟨_, rfl⟩
    · rw [if_neg hemp]
      unfold fetch_youtube_stats_for_videos
      rw [if_neg h1]
      obtain ⟨r, hr⟩ := fetchStatsAux_ok w h2 (discoverAll w apiKey ccfg kcfg mc mk).1 []
      rw [hr]
      exact ⟨_, rfl⟩

/-- Witness for claim C7's amended theorem: dropping the failing channel
CH1 leaves the build unchanged and the snapshot holds exactly the
succeeding channel's entity; dropping a failing keyword query leaves the
build unchanged; an HTTP-error stats batch yields the stats accumulated
so far; and an all-succeeding build raises nothing. -/
theorem c7_witness :
    (build_snapshot_from_channels_and_keywords c7mixWorld "KEY" [c7chBad, c7chGood] [] 5 3 =
      build_snapshot_from_channels_and_keywords c7mixWorld "KEY" [c7chGood] [] 5 3) ∧
    (build_snapshot_from_channels_and_keywords c7mixWorld "KEY" [c7chBad, c7chGood] [] 5 3 =
      Except.ok c7mixRes) ∧
    (build_snapshot_from_channels_and_keywords c7mixWorld "KEY" [] [c7kwBad] 5 3 =
      build_snapshot_from_channels_and_keywords c7mixWorld "KEY" []
        [{ c7kwBad with queries := some [] }] 5 3) ∧
    (fetchStatsAux c7hw ["v1"] [] = Except.ok []) ∧
    (∃ s, build_snapshot_from_channels_and_keywords c7mixWorld "KEY" [c7chGood] [] 5 3 =
      Except.ok s) := by
  have hchan := (c7_build_containment_amended c7mixWorld "KEY" [] [] 5 3).1
    [] [c7chGood] c7chBad "CH1" "RequestException" rfl (by decide) rfl
  have hkw := (c7_build_containment_amended c7mixWorld "KEY" [] [] 5 3).2.1
    [] [] c7kwBad "qbad" "RequestException" [] [] rfl rfl
  have hhttp := (c7_build_containment_amended c7hw "KEY" [] [] 5 3).2.2.1 "v1" [] [] rfl
  have hok := (c7_build_containment_amended c7mixWorld "KEY" [c7chGood] [] 5 3).2.2.2
    (by decide) (fun b => by simp [c7mixWorld])
  have heval : build_snapshot_from_channels_and_keywords c7mixWorld "KEY" [c7chGood] [] 5 3 =
      Except.ok c7mixRes := by
    have hne : ¬ ("KEY" : String) = "" := by decide
    have hf : fetch_youtube_stats_for_videos c7mixWorld "KEY" ["v2"] =
        Except.ok [("v2", (⟨"T", "CT", 30000, 1, 2⟩ : Stats))] := by
      unfold fetch_youtube_stats_for_videos
      rw [if_neg hne, fetchStatsAux]
      show fetchStatsAux c7mixWorld [] [("v2", (⟨"T", "CT", 30000, 1, 2⟩ : Stats))] =
        Except.ok [("v2", (⟨"T", "CT", 30000, 1, 2⟩ : Stats))]
      rw [fetchStatsAux]
    have hd : (discoverAll c7mixWorld "KEY" [c7chGood] [] 5 3).1 = ["v2"] := by decide
    simp only [build_snapshot_from_channels_and_keywords, if_neg hne, hd]
    rw [if_neg (by decide : ¬(["v2"] : List String).isEmpty = true), hf, except_bind_ok]
    exact congrArg Except.ok (by decide)
  exact ⟨hchan, hchan.trans heval, hkw, hhttp, hok⟩

/-- Claim C8: under an authorized refresh request, a last run less than 24
hours (1440 minutes) ago yields `skipped_recent` with no writes; an
empty-entity build yields `error_no_videos` with no writes; otherwise the
endpoint responds `ok`, saves the enriched snapshot and updates the guard
timestamp. -/
theorem c8_refresh_guard (w : World) (apiKey refreshToken token : String) (now : ℤ)
    (lastRunF : FileOutcome LastRunDoc) (snapF : FileOutcome SnapDoc)
    (ccfg : List ChannelCfg) (kcfg : List KeywordCfg)
    (hcfg : refreshToken ≠ "") (htok : token = refreshToken) :
    (∀ t, get_last_option5_run lastRunF = Except.ok (some t) → now - t < 1440 →
      refresh_snapshot w apiKey refreshToken token now lastRunF snapF ccfg kcfg =
        Except.ok ⟨Response.skipped_recent t, none, none⟩) ∧
    (∀ lr, get_last_option5_run lastRunF = Except.ok lr →
      (lr = none ∨ ∃ t, lr = some t ∧ 1440 ≤ now - t) →
      ∀ prevOpt, load_previous_data snapF = Except.ok prevOpt →
      ∀ c, build_snapshot_from_channels_and_keywords w apiKey ccfg kcfg 5 3 = Except.ok c →
        (pyFalsyVideos c = true →
          refresh_snapshot w apiKey refreshToken token now lastRunF snapF ccfg kcfg =
            Except.ok ⟨Response.error_no_videos, none, none⟩) ∧
        (∀ s2 nvs, pyFalsyVideos c = false →
          apply_deltas_to_snapshot prevOpt (some c) = some (some s2) →
          s2.videos = some nvs →
          refresh_snapshot w apiKey refreshToken token now lastRunF snapF ccfg kcfg =
            Except.ok ⟨Response.okResp s2.timestamp nvs.length, some s2, some now⟩)) := by
  have hck : ¬ (token ≠ refreshToken) := fun hne => hne htok
  constructor
  · intro t hlr hlt
    unfold refresh_snapshot
    rw [if_neg hcfg, if_neg hck, hlr, except_bind_ok]
    show (if now - t < 1440 then (pure ⟨Response.skipped_recent t, none, none⟩ :
            Except String RefreshOutcome)
          else refreshBody w apiKey now snapF ccfg kcfg) =
        Except.ok ⟨Response.skipped_recent t, none, none⟩
    rw [if_pos hlt]
    rfl
  · intro lr hlr hguard prevOpt hprev c hb
    have hrefresh : refresh_snapshot w apiKey refreshToken token now lastRunF snapF ccfg kcfg =
        refreshBody w apiKey now snapF ccfg kcfg := by
      unfold refresh_snapshot
      rw [if_neg hcfg, if_neg hck, hlr, except_bind_ok]
      rcases hguard with rfl | ⟨t, rfl, hge⟩
      · rfl
      · show (if now - t < 1440 then (pure ⟨Response.skipped_recent t, none, none⟩ :
                Except String RefreshOutcome)
              else refreshBody w apiKey now snapF ccfg kcfg) =
            refreshBody w apiKey now snapF ccfg kcfg
        rw [if_neg (not_lt.mpr hge)]
    constructor
    · intro hfalsy
      rw [hrefresh]
      unfold refreshBody
      rw [hprev, except_bind_ok, hb, except_bind_ok, if_pos hfalsy]
      rfl
    · intro s2 nvs hfalsy happly hnvs
      rw [hrefresh]
      unfold refreshBody
      rw [hprev, except_bind_ok, hb, except_bind_ok,
        if_neg (by rw [hfalsy]; exact Bool.false_ne_true), happly]
      show (orRaise (some s2) "TypeError" >>= fun enriched =>
          orRaise enriched.videos "KeyError" >>= fun vl =>
          (pure ⟨Response.okResp enriched.timestamp vl.length, some enriched, some now⟩ :
            Except String RefreshOutcome)) =
        Except.ok ⟨Response.okResp s2.timestamp nvs.length, some s2, some now⟩
      rw [show orRaise (some s2) "TypeError" = Except.ok s2 from rfl, except_bind_ok, hnvs]
      rfl

section BuildLemmas

theorem except_bind_error {α β : Type} (e : String) (f : α → Except String β) :
    ((Except.error e : Except String α) >>= f) = Except.error e := rfl

theorem addIds_inv (ids : List String) (stype skey slabel : String) :
    ∀ {st : List String × List MetaRec}, stInv st →
      stInv (addIds ids stype skey slabel st) := by
  unfold addIds
  induction ids with
  | nil => intro st h; exact h
  | cons v rest ih =>
    intro st h
    simp only [List.foldl_cons]
    by_cases hv : v ∈ st.1
    · rw [if_pos hv]
      exact ih h
    · rw [if_neg hv]
      apply ih
      constructor
      · simp [h.1]
      · simp [List.nodup_append, h.2, hv]

theorem discoverChannels_inv (w : World) (apiKey : String) (mc : ℕ) :
    ∀ (cfg : List ChannelCfg) {st : List String × List MetaRec}, stInv st →
      stInv (discoverChannels w apiKey mc cfg st) := by
  intro cfg
  induction cfg with
  | nil => intro st h; exact h
  | cons ch rest ih =>
    intro st h
    rw [discoverChannels]
    split
    · exact ih h
    · split
      · exact ih h
      · split
        · exact ih h
        · exact ih (addIds_inv _ _ _ _ h)

theorem discoverKeywords_inv (w : World) (apiKey : String) (mk : ℕ) :
    ∀ (cfg : List KeywordCfg) {st : List String × List MetaRec}, stInv st →
      stInv (discoverKeywords w apiKey mk cfg st) := by
  intro cfg
  induction cfg with
  | nil => intro st h; exact h
  | cons kw rest ih =>
    intro st h
    rw [discoverKeywords]
    apply ih
    generalize (kw.queries.getD []) = qs
    induction qs generalizing st with
    | nil => exact h
    | cons q qrest ihq =>
      simp only [List.foldl_cons]
      split
      · exact ihq h
      · exact ihq (addIds_inv _ _ _ _ h)

theorem discoverAll_inv (w : World) (apiKey : String) (ccfg : List ChannelCfg)
    (kcfg : List KeywordCfg) (mc mk : ℕ) :
    stInv (discoverAll w apiKey ccfg kcfg mc mk) :=
  discoverKeywords_inv w apiKey mk kcfg
    (discoverChannels_inv w apiKey mc ccfg ⟨rfl, List.nodup_nil⟩)

theorem dictAssign_mem {α : Type} :
    ∀ {acc : List (String × α)} {k : String} {v : α} {p : String × α},
      p ∈ dictAssign acc k v → p ∈ acc ∨ p = (k, v) := by
  intro acc
  induction acc with
  | nil =>
    intro k v p hp
    simp [dictAssign] at hp
    right
    simp [hp]
  | cons q rest ih =>
    intro k v p hp
    by_cases hq : q.1 = k
    · simp only [dictAssign, if_pos hq] at hp
      rcases List.mem_cons.mp hp with rfl | hin
      · right
        rw [hq]
      · left
        exact List.mem_cons_of_mem q hin
    · simp only [dictAssign, if_neg hq] at hp
      rcases List.mem_cons.mp hp with rfl | hin
      · left
        exact List.mem_cons_self p rest
      · rcases ih hin with h1 | h2
        · left
          exact List.mem_cons_of_mem q h1
        · right
          exact h2

theorem dictAssign_vids_nodup :
    ∀ {acc : List (String × Entity)} {k : String} {e : Entity},
      ((acc.map fun p => p.2.video_id).Nodup) →
      (∀ p ∈ acc, p.2.video_id ≠ e.video_id) →
      (((dictAssign acc k e).map fun p => p.2.video_id).Nodup) := by
  intro acc
  induction acc with
  | nil =>
    intro k e _ _
    simp [dictAssign]
  | cons q rest ih =>
    intro k e hnd hfresh
    simp only [List.map_cons, List.nodup_cons] at hnd
    by_cases hq : q.1 = k
    · simp only [dictAssign, if_pos hq, List.map_cons, List.nodup_cons]
      refine ⟨?_, hnd.2⟩
      intro hmem
      simp only [List.mem_map] at hmem
      obtain ⟨p, hp, hpe⟩ := hmem
      exact hfresh p (List.mem_cons_of_mem q hp) hpe
    · simp only [dictAssign, if_neg hq, List.map_cons, List.nodup_cons]
      constructor
      · intro hmem
        simp only [List.mem_map] at hmem
        obtain ⟨p, hp, hpe⟩ := hmem
        rcases dictAssign_mem hp with hin | rfl
        · exact hnd.1 (by exact List.mem_map.mpr ⟨p, hin, hpe⟩)
        · exact hfresh q (List.mem_cons_self q rest) hpe.symm
      · exact ih hnd.2 fun p hp => hfresh p (List.mem_cons_of_mem q hp)

theorem find?_vid_of_nodup :
    ∀ {metas : List MetaRec} {m : MetaRec},
      ((metas.map MetaRec.video_id).Nodup) → m ∈ metas →
      metas.find? (fun m2 => m2.video_id == m.video_id) = some m := by
  intro metas
  induction metas with
  | nil => intro m _ hm; cases hm
  | cons m0 rest ih =>
    intro m hnd hm
    simp only [List.map_cons, List.nodup_cons] at hnd
    rcases List.mem_cons.mp hm with rfl | hm2
    · rw [List.find?_cons_of_pos _ (by simp)]
    · have hne : m0.video_id ≠ m.video_id := by
        intro he
        apply hnd.1
        rw [he]
        exact List.mem_map_of_mem MetaRec.video_id hm2
      rw [List.find?_cons_of_neg _ (by simp [hne])]
      exact ih hnd.2 hm2

end BuildLemmas

theorem buildFold_inv (stats : List (String × Stats)) :
    ∀ (metas P : List MetaRec) (acc : List (String × Entity)),
      (∀ p ∈ acc, ∃ m ∈ P, p.1 = metaKey m ∧ p.2.video_id = some m.video_id) →
      ((acc.map fun p => p.2.video_id).Nodup) →
      (((P ++ metas).map MetaRec.video_id).Nodup) →
      (∀ p ∈ metas.foldl
          (fun acc m =>
            match lookupKV stats m.video_id with
            | none => acc
            | some sbv => dictAssign acc (metaKey m) (entityOfStats m sbv)) acc,
        ∃ m ∈ P ++ metas, p.1 = metaKey m ∧ p.2.video_id = some m.video_id) ∧
      (((metas.foldl
          (fun acc m =>
            match lookupKV stats m.video_id with
            | none => acc
            | some sbv => dictAssign acc (metaKey m) (entityOfStats m sbv)) acc).map
        fun p => p.2.video_id).Nodup) := by
  intro metas
  induction metas with
  | nil =>
    intro P acc h1 h2 _
    rw [List.append_nil]
    exact ⟨h1, h2⟩
  | cons m rest ih =>
    intro P acc h1 h2 h3
    have h3' : ((P ++ [m] ++ rest).map MetaRec.video_id).Nodup := by
      simpa [List.append_assoc] using h3
    have hmfresh : m.video_id ∉ P.map MetaRec.video_id := by
      rw [List.map_append] at h3
      rcases List.nodup_append.mp h3 with ⟨_, hmr, hdisj⟩
      intro hmem
      exact hdisj hmem (by simp)
    simp only [List.foldl_cons]
    cases hlk : lookupKV stats m.video_id with
    | none =>
      have hres := ih (P ++ [m]) acc
        (by
          intro p hp
          obtain ⟨m2, hm2, hkey, hvid⟩ := h1 p hp
          exact ⟨m2, List.mem_append_left [m] hm2, hkey, hvid⟩)
        h2 h3'
      constructor
      · intro p hp
        obtain ⟨m2, hm2, hkey, hvid⟩ := hres.1 p hp
        refine ⟨m2, ?_, hkey, hvid⟩
        simpa [List.append_assoc] using hm2
      · exact hres.2
    | some sbv =>
      have hfresh : ∀ p ∈ acc, p.2.video_id ≠ (entityOfStats m sbv).video_id := by
        intro p hp he
        obtain ⟨m2, hm2, _, hvid⟩ := h1 p hp
        rw [hvid] at he
        have : m2.video_id = m.video_id := by
          simpa [entityOfStats] using he
        exact hmfresh (this ▸ List.mem_map_of_mem MetaRec.video_id hm2)
      have hmem2 : ∀ p ∈ dictAssign acc (metaKey m) (entityOfStats m sbv),
          ∃ m2 ∈ P ++ [m], p.1 = metaKey m2 ∧ p.2.video_id = some m2.video_id := by
        intro p hp
        rcases dictAssign_mem hp with hin | rfl
        · obtain ⟨m2, hm2, hkey, hvid⟩ := h1 p hin
          exact ⟨m2, List.mem_append_left [m] hm2, hkey, hvid⟩
        · exact ⟨m, List.mem_append_right P (by simp), rfl, rfl⟩
      have hnd2 := dictAssign_vids_nodup (k := metaKey m) h2 hfresh
      have hres := ih (P ++ [m]) (dictAssign acc (metaKey m) (entityOfStats m sbv))
        hmem2 hnd2 h3'
      constructor
      · intro p hp
        obtain ⟨m2, hm2, hkey, hvid⟩ := hres.1 p hp
        refine ⟨m2, ?_, hkey, hvid⟩
        simpa [List.append_assoc] using hm2
      · exact hres.2

/-- Claim C10: in a successfully built snapshot, entity records carry
pairwise distinct external video ids, and each record is keyed under the
first sub-source (channels before keywords, in configuration order) that
discovered its video id. -/
theorem c10_dedup (w : World) (apiKey : String) (ccfg : List ChannelCfg)
    (kcfg : List KeywordCfg) (mc mk : ℕ) (s : Snapshot)
    (h : build_snapshot_from_channels_and_keywords w apiKey ccfg kcfg mc mk = Except.ok s) :
    ((s.videosD.map fun p => p.2.video_id).Nodup) ∧
    ∀ p ∈ s.videosD, ∃ m ∈ metasOf w apiKey ccfg kcfg mc mk,
      (metasOf w apiKey ccfg kcfg mc mk).find?
        (fun m2 => m2.video_id == p.2.video_id.getD "") = some m ∧
      p.1 = metaKey m ∧ p.2.video_id = some m.video_id := by
  unfold build_snapshot_from_channels_and_keywords at h
  by_cases hak : apiKey = ""
  · rw [if_pos hak] at h
    cases h
  · rw [if_neg hak] at h
    have hinv := discoverAll_inv w apiKey ccfg kcfg mc mk
    have hndv : ((metasOf w apiKey ccfg kcfg mc mk).map MetaRec.video_id).Nodup := by
      have := hinv.2
      rw [hinv.1] at this
      exact this
    by_cases hemp : (discoverAll w apiKey ccfg kcfg mc mk).1.isEmpty
    · rw [if_pos hemp] at h
      obtain rfl : ({ timestamp := some w.now, videos := some [] } : Snapshot) = s :=
        Except.ok.inj h
      constructor
      · simp [Snapshot.videosD]
      · intro p hp
        simp [Snapshot.videosD] at hp
    · rw [if_neg hemp] at h
      cases hf : fetch_youtube_stats_for_videos w apiKey (discoverAll w apiKey ccfg kcfg mc mk).1 with
      | error e =>
        rw [hf, except_bind_error] at h
        cases h
      | ok stats =>
        rw [hf, except_bind_ok] at h
        obtain rfl := (Except.ok.inj h).symm
        have hfold := buildFold_inv stats (metasOf w apiKey ccfg kcfg mc mk) [] []
          (by intro p hp; cases hp) (by simp) (by simpa using hndv)
        constructor
        · simpa [Snapshot.videosD] using hfold.2
        · intro p hp
          have hp2 : p ∈ (metasOf w apiKey ccfg kcfg mc mk).foldl
              (fun acc m =>
                match lookupKV stats m.video_id with
                | none => acc
                | some sbv => dictAssign acc (metaKey m) (entityOfStats m sbv)) [] := by
            simpa [Snapshot.videosD] using hp
          obtain ⟨m, hm, hkey, hvid⟩ := hfold.1 p hp2
          rw [List.nil_append] at hm
          refine ⟨m, hm, ?_, hkey, hvid⟩
          rw [hvid]
          exact find?_vid_of_nodup hndv hm

/-- Witness for claim C8 at concrete endpoint inputs (authorized request,
guard file recording a run 100 minutes ago). -/
theorem c8_witness :
    ("tok" : String) ≠ "" ∧
    ((∀ t, get_last_option5_run (FileOutcome.json (LastRunDoc.valid 0)) = Except.ok (some t) →
        (100 : ℤ) - t < 1440 →
        refresh_snapshot c8world "K" "tok" "tok" 100 (FileOutcome.json (LastRunDoc.valid 0))
            FileOutcome.absent [] [] =
          Except.ok ⟨Response.skipped_recent t, none, none⟩) ∧
      (∀ lr, get_last_option5_run (FileOutcome.json (LastRunDoc.valid 0)) = Except.ok lr →
        (lr = none ∨ ∃ t, lr = some t ∧ 1440 ≤ (100 : ℤ) - t) →
        ∀ prevOpt, load_previous_data FileOutcome.absent = Except.ok prevOpt →
        ∀ c, build_snapshot_from_channels_and_keywords c8world "K" [] [] 5 3 = Except.ok c →
          (pyFalsyVideos c = true →
            refresh_snapshot c8world "K" "tok" "tok" 100 (FileOutcome.json (LastRunDoc.valid 0))
                FileOutcome.absent [] [] =
              Except.ok ⟨Response.error_no_videos, none, none⟩) ∧
          (∀ s2 nvs, pyFalsyVideos c = false →
            apply_deltas_to_snapshot prevOpt (some c) = some (some s2) →
            s2.videos = some nvs →
            refresh_snapshot c8world "K" "tok" "tok" 100 (FileOutcome.json (LastRunDoc.valid 0))
                FileOutcome.absent [] [] =
              Except.ok ⟨Response.okResp s2.timestamp nvs.length, some s2, some 100⟩))) :=
  ⟨by decide,
    c8_refresh_guard c8world "K" "tok" "tok" 100 (FileOutcome.json (LastRunDoc.valid 0))
      FileOutcome.absent [] [] (by decide) rfl⟩

/-- Witness for claim C10 at a concrete world where a keyword query
rediscovers a channel's video. -/
theorem c10_witness :
    build_snapshot_from_channels_and_keywords c10world "K" c10ccfg c10kcfg 5 3 =
      Except.ok c10res ∧
    (((c10res.videosD.map fun p => p.2.video_id).Nodup) ∧
      ∀ p ∈ c10res.videosD, ∃ m ∈ metasOf c10world "K" c10ccfg c10kcfg 5 3,
        (metasOf c10world "K" c10ccfg c10kcfg 5 3).find?
          (fun m2 => m2.video_id == p.2.video_id.getD "") = some m ∧
        p.1 = metaKey m ∧ p.2.video_id = some m.video_id) := by
  have hne : ¬ ("K" : String) = "" := by decide
  have hf : fetch_youtube_stats_for_videos c10world "K" ["vA", "vB", "vC"] =
      Except.ok c10stats := by
    unfold fetch_youtube_stats_for_videos
    rw [if_neg hne, fetchStatsAux]
    show fetchStatsAux c10world [] c10stats = Except.ok c10stats
    rw [fetchStatsAux]
  have hd : (discoverAll c10world "K" c10ccfg c10kcfg 5 3).1 = ["vA", "vB", "vC"] := by decide
  have hb : build_snapshot_from_channels_and_keywords c10world "K" c10ccfg c10kcfg 5 3 =
      Except.ok c10res := by
    simp only [build_snapshot_from_channels_and_keywords, if_neg hne, hd]
    rw [if_neg (by decide : ¬(["vA", "vB", "vC"] : List String).isEmpty = true), hf,
      except_bind_ok]
    exact congrArg Except.ok (by decide)
  exact ⟨hb, c10_dedup c10world "K" c10ccfg c10kcfg 5 3 c10res hb⟩
